import Mathlib

/-!
Verification of the Comtrac-tuner numeric core against its specification.

The definitions below are shallow embeddings of the JavaScript functions in
`src/App.jsx` (and the field-portal module).  Data carried by the program is
modelled over `ℚ` (every JavaScript number appearing in the data flow is a
finite binary float, hence rational); computations that use transcendental
library calls (`Math.cos`, `Math.sqrt`, ...) are modelled over `ℝ`.
JavaScript `null` is modelled by `Option.none`.
-/

/-- `x.toFixed(d)` followed by `parseFloat`, i.e. rounding to `d` decimal
places, over `ℚ`.  For non-negative arguments (the only ties the call sites
modelled here can produce) JavaScript's rounding agrees with `round`. -/
def roundDec (d : ℕ) (q : ℚ) : ℚ := (round (q * 10 ^ d) : ℤ) / 10 ^ d

/-- Real-number version of `roundDec`, for the computations modelled over `ℝ`
(`calculateIDFromODWeight`). -/
noncomputable def roundDecR (d : ℕ) (x : ℝ) : ℝ := (round (x * 10 ^ d) : ℤ) / 10 ^ d

section Interpolate

/-- The value produced by the interpolation segment at index `i`. -/
def lininterp (x : ℚ) (xs ys : List ℚ) (i : ℕ) : ℚ :=
  ys.getD i 0 + (x - xs.getD i 0) / (xs.getD (i + 1) 0 - xs.getD i 0) *
    (ys.getD (i + 1) 0 - ys.getD i 0)

/-- The scanning loop of `interpolate` (App.jsx lines 43-48), written with a
structural fuel argument (the loop index advances by one per iteration, so
`xs.length - i` fuel runs the source loop to completion): starting at index
`i`, find the first segment `[xs[i], xs[i+1]]` containing `x` and return the
linear interpolation on it; `none` when the loop runs off the end.  The source
reads `xArray[i]`/`yArray[i]` directly; the loop guard keeps every visited
index in bounds, and `getD _ 0` realises those in-bounds reads. -/
def interpGo (x : ℚ) (xs ys : List ℚ) : ℕ → ℕ → Option ℚ
  | _, 0 => none
  | i, Nat.succ fuel =>
    if i + 1 < xs.length then
      if xs.getD i 0 ≤ x ∧ x ≤ xs.getD (i + 1) 0 then some (lininterp x xs ys i)
      else interpGo x xs ys (i + 1) fuel
    else none

/-- The source loop from index `i` on. -/
def interpLoop (x : ℚ) (xs ys : List ℚ) (i : ℕ) : Option ℚ :=
  interpGo x xs ys i (xs.length - i)

/-- Embedding of `interpolate` (App.jsx lines 41-52): piecewise-linear lookup
with clamping; `0` for an empty (or missing) knot array, and `0` when `x` lies
in no segment yet is neither below the first knot nor above the last. -/
def interpolate (x : ℚ) (xs ys : List ℚ) : ℚ :=
  if xs.isEmpty then 0
  else
    match interpLoop x xs ys 0 with
    | some v => v
    | none =>
      if x < xs.getD 0 0 then ys.getD 0 0
      else if x > xs.getD (xs.length - 1) 0 then ys.getD (ys.length - 1) 0
      else 0

theorem interpGo_fuel_irrel (x : ℚ) (xs ys : List ℚ) :
    ∀ f1 f2 i, xs.length - i ≤ f1 → xs.length - i ≤ f2 →
      interpGo x xs ys i f1 = interpGo x xs ys i f2 := by
  intro f1
  induction f1 with
  | zero =>
    intro f2 i h1 h2
    cases f2 with
    | zero => rfl
    | succ f2 =>
      have hb : ¬ i + 1 < xs.length := by omega
      simp [interpGo, hb]
  | succ f1 ih =>
    intro f2 i h1 h2
    cases f2 with
    | zero =>
      have hb : ¬ i + 1 < xs.length := by omega
      simp [interpGo, hb]
    | succ f2 =>
      by_cases hb : i + 1 < xs.length
      · by_cases hc : xs.getD i 0 ≤ x ∧ x ≤ xs.getD (i + 1) 0
        · simp only [interpGo, if_pos hb, if_pos hc]
        · simp only [interpGo, if_pos hb, if_neg hc]
          exact ih f2 (i + 1) (by omega) (by omega)
      · simp only [interpGo, if_neg hb]

theorem interpLoop_of_cond (x : ℚ) (xs ys : List ℚ) (i : ℕ)
    (h : i + 1 < xs.length) (hc : xs.getD i 0 ≤ x ∧ x ≤ xs.getD (i + 1) 0) :
    interpLoop x xs ys i = some (lininterp x xs ys i) := by
  unfold interpLoop
  have hsplit : xs.length - i = (xs.length - i - 1) + 1 := by omega
  rw [hsplit]
  simp only [interpGo, if_pos h, if_pos hc]

theorem interpLoop_of_not_cond (x : ℚ) (xs ys : List ℚ) (i : ℕ)
    (h : i + 1 < xs.length) (hc : ¬(xs.getD i 0 ≤ x ∧ x ≤ xs.getD (i + 1) 0)) :
    interpLoop x xs ys i = interpLoop x xs ys (i + 1) := by
  unfold interpLoop
  have h1 : xs.length - i = (xs.length - i - 1) + 1 := by omega
  rw [h1]
  simp only [interpGo, if_pos h, if_neg hc]
  exact interpGo_fuel_irrel x xs ys (xs.length - i - 1) (xs.length - (i + 1)) (i + 1)
    (by omega) (by omega)

theorem interpLoop_of_oob (x : ℚ) (xs ys : List ℚ) (i : ℕ)
    (h : ¬ i + 1 < xs.length) :
    interpLoop x xs ys i = none := by
  unfold interpLoop
  cases hn : xs.length - i with
  | zero => rfl
  | succ f => simp only [interpGo, if_neg h]

theorem interpLoop_eq_none (x : ℚ) (xs ys : List ℚ) :
    ∀ n i, xs.length - i ≤ n →
      (∀ j, i ≤ j → j + 1 < xs.length →
        ¬(xs.getD j 0 ≤ x ∧ x ≤ xs.getD (j + 1) 0)) →
      interpLoop x xs ys i = none := by
  intro n
  induction n with
  | zero =>
    intro i hn _
    exact interpLoop_of_oob x xs ys i (by omega)
  | succ n ih =>
    intro i hn hno
    by_cases h : i + 1 < xs.length
    · rw [interpLoop_of_not_cond x xs ys i h (hno i le_rfl h)]
      exact ih (i + 1) (by omega) fun j hj => hno j (by omega)
    · exact interpLoop_of_oob x xs ys i h

theorem getD_lt_getD_of_sorted {xs : List ℚ} (hs : List.Pairwise (· < ·) xs)
    {a b : ℕ} (hab : a < b) (hb : b < xs.length) :
    xs.getD a 0 < xs.getD b 0 := by
  rw [List.getD_eq_getElem xs 0 (by omega), List.getD_eq_getElem xs 0 hb]
  exact List.pairwise_iff_getElem.mp hs a b (by omega) hb hab

theorem getD_le_getD_of_sorted {xs : List ℚ} (hs : List.Pairwise (· < ·) xs)
    {a b : ℕ} (hab : a ≤ b) (hb : b < xs.length) :
    xs.getD a 0 ≤ xs.getD b 0 := by
  rcases eq_or_lt_of_le hab with rfl | h
  · exact le_rfl
  · exact le_of_lt (getD_lt_getD_of_sorted hs h hb)

theorem lininterp_right_knot (x : ℚ) (xs ys : List ℚ) (s : ℕ)
    (hne : xs.getD (s + 1) 0 - xs.getD s 0 ≠ 0)
    (hx : x = xs.getD (s + 1) 0) :
    lininterp x xs ys s = ys.getD (s + 1) 0 := by
  unfold lininterp
  rw [hx, div_self hne]
  ring

theorem lininterp_left_knot (x : ℚ) (xs ys : List ℚ) (i : ℕ)
    (hx : x = xs.getD i 0) :
    lininterp x xs ys i = ys.getD i 0 := by
  unfold lininterp
  rw [hx]
  simp

theorem interpLoop_interior (x : ℚ) (xs ys : List ℚ)
    (hs : List.Pairwise (· < ·) xs) :
    ∀ n i s, i - s ≤ n → s ≤ i → i + 1 < xs.length →
      xs.getD i 0 ≤ x → x ≤ xs.getD (i + 1) 0 →
      interpLoop x xs ys s = some (lininterp x xs ys i) := by
  intro n
  induction n with
  | zero =>
    intro i s hn hsi hi hx1 hx2
    have : s = i := by omega
    subst this
    exact interpLoop_of_cond x xs ys s hi ⟨hx1, hx2⟩
  | succ n ih =>
    intro i s hn hsi hi hx1 hx2
    rcases eq_or_lt_of_le hsi with rfl | hlt
    · exact interpLoop_of_cond x xs ys s hi ⟨hx1, hx2⟩
    · have hs1 : s + 1 < xs.length := by omega
      by_cases hc : xs.getD s 0 ≤ x ∧ x ≤ xs.getD (s + 1) 0
      · -- the loop stops early at segment s; then x = xs[s+1] = xs[i] and
        -- s + 1 = i, so both segments produce the same value
        have hle : xs.getD (s + 1) 0 ≤ xs.getD i 0 :=
          getD_le_getD_of_sorted hs (by omega) (by omega)
        have hxeq : x = xs.getD (s + 1) 0 := le_antisymm hc.2 (le_trans hle hx1)
        have hxi : x = xs.getD i 0 := le_antisymm (hxeq ▸ hle) hx1
        have hsi1 : s + 1 = i := by
          by_contra hcon
          have hlt2 : s + 1 < i := by omega
          have := getD_lt_getD_of_sorted hs hlt2 (by omega)
          rw [← hxeq, ← hxi] at this
          exact lt_irrefl x this
        have hd : xs.getD (s + 1) 0 - xs.getD s 0 ≠ 0 := by
          have := getD_lt_getD_of_sorted hs (Nat.lt_succ_self s) hs1
          intro hcontra
          nlinarith
        rw [interpLoop_of_cond x xs ys s hs1 hc]
        rw [lininterp_right_knot x xs ys s hd hxeq]
        rw [lininterp_left_knot x xs ys i hxi, hsi1]
      · rw [interpLoop_of_not_cond x xs ys s hs1 hc]
        exact ih i (s + 1) (by omega) (by omega) hi hx1 hx2

/-- **C7.** `interpolate` never fails: an empty (or missing) knot array gives
`0`; for ascending knots, an `x` strictly below the first knot gives the first
`y`, an `x` strictly above the last knot gives the last `y`, and an `x` inside
the domain gives the piecewise-linear value of its segment; in particular
`interpolate 50 [0,100] [0,200] = 100`, `interpolate (-10) ... = 0` and
`interpolate 150 ... = 200`. -/
theorem C7_interpolate_never_fails (x : ℚ) (xs ys : List ℚ)
    (hs : List.Pairwise (· < ·) xs) :
    interpolate x [] ys = 0 ∧
    (xs ≠ [] → x < xs.getD 0 0 → interpolate x xs ys = ys.getD 0 0) ∧
    (xs ≠ [] → xs.getD (xs.length - 1) 0 < x →
      interpolate x xs ys = ys.getD (ys.length - 1) 0) ∧
    (∀ i, i + 1 < xs.length → xs.getD i 0 ≤ x → x ≤ xs.getD (i + 1) 0 →
      interpolate x xs ys = lininterp x xs ys i) ∧
    interpolate 50 [0, 100] [0, 200] = 100 ∧
    interpolate (-10) [0, 100] [0, 200] = 0 ∧
    interpolate 150 [0, 100] [0, 200] = 200 := by
  have hmid : interpolate 50 [0, 100] [0, 200] = 100 := by
    unfold interpolate
    rw [interpLoop_of_cond 50 [0, 100] [0, 200] 0 (by norm_num) (by norm_num)]
    norm_num [lininterp]
  have hlo : interpolate (-10) [0, 100] [0, 200] = 0 := by
    have hn : interpLoop (-10) [0, 100] [0, 200] 0 = none := by
      refine interpLoop_eq_none (-10) [0, 100] [0, 200] 2 0 (by norm_num) ?_
      intro j _ hj
      have hj0 : j = 0 := by simp at hj; omega
      subst hj0
      norm_num
    unfold interpolate
    rw [hn]
    norm_num
  have hhi : interpolate 150 [0, 100] [0, 200] = 200 := by
    have hn : interpLoop 150 [0, 100] [0, 200] 0 = none := by
      refine interpLoop_eq_none 150 [0, 100] [0, 200] 2 0 (by norm_num) ?_
      intro j _ hj
      have hj0 : j = 0 := by simp at hj; omega
      subst hj0
      norm_num
    unfold interpolate
    rw [hn]
    norm_num
  refine ⟨rfl, ?_, ?_, ?_, hmid, hlo, hhi⟩
  · intro hne hbelow
    have hloop : interpLoop x xs ys 0 = none := by
      refine interpLoop_eq_none x xs ys xs.length 0 (by omega) ?_
      intro j _ hj hcj
      have : xs.getD 0 0 ≤ xs.getD j 0 :=
        getD_le_getD_of_sorted hs (Nat.zero_le j) (by omega)
      linarith [hcj.1]
    unfold interpolate
    rw [if_neg (by simpa [List.isEmpty_iff] using hne), hloop]
    rw [if_pos hbelow]
  · intro hne habove
    have hlen : 0 < xs.length := List.length_pos.mpr hne
    have hloop : interpLoop x xs ys 0 = none := by
      refine interpLoop_eq_none x xs ys xs.length 0 (by omega) ?_
      intro j _ hj hcj
      have : xs.getD (j + 1) 0 ≤ xs.getD (xs.length - 1) 0 :=
        getD_le_getD_of_sorted hs (by omega) (by omega)
      linarith [hcj.2]
    have hfirst : ¬ x < xs.getD 0 0 := by
      have : xs.getD 0 0 ≤ xs.getD (xs.length - 1) 0 :=
        getD_le_getD_of_sorted hs (by omega) (by omega)
      linarith
    unfold interpolate
    rw [if_neg (by simpa [List.isEmpty_iff] using hne), hloop]
    rw [if_neg hfirst, if_pos habove]
  · intro i hi hx1 hx2
    have hne : ¬ xs.isEmpty := by
      cases xs with
      | nil => simp at hi
      | cons a l => simp
    have hloop := interpLoop_interior x xs ys hs i i 0 (by omega) (by omega) hi hx1 hx2
    unfold interpolate
    rw [if_neg hne, hloop]

/-- Witness for C7: the hypotheses are satisfiable; instantiating at
`xs = [0, 100]`, `ys = [0, 200]` recovers the boundary clamps and the interior
segment value. -/
theorem C7_interpolate_never_fails_witness :
    interpolate (-10) [0, 100] [0, 200] = ([0, 200] : List ℚ).getD 0 0 ∧
    interpolate 150 [0, 100] [0, 200] = ([0, 200] : List ℚ).getD 1 0 ∧
    interpolate 50 [0, 100] [0, 200] = lininterp 50 [0, 100] [0, 200] 0 := by
  have h := C7_interpolate_never_fails 50 [0, 100] [0, 200] (by norm_num)
  have h1 := C7_interpolate_never_fails (-10) [0, 100] [0, 200] (by norm_num)
  have h2 := C7_interpolate_never_fails 150 [0, 100] [0, 200] (by norm_num)
  refine ⟨?_, ?_, ?_⟩
  · exact h1.2.1 (by simp) (by norm_num)
  · have := h2.2.2.1 (by simp) (by norm_num)
    simpa using this
  · exact h.2.2.2.1 0 (by norm_num) (by norm_num) (by norm_num)

end Interpolate

section Trajectory

/-- A survey station as parsed by the application: measured depth, inclination
and azimuth, inclination/azimuth in degrees.  Station data is modelled over
`ℚ`. -/
structure SurveyStation where
  md : ℚ
  inc : ℚ
  azi : ℚ
deriving DecidableEq

/-- A 3D trajectory point (App.jsx line 91): plotting coordinates `x = E`,
`y = -TVD`, `z = -N` together with `md` and `tvd`; north is `-z`, east `x`. -/
structure TrajPoint where
  x : ℝ
  y : ℝ
  z : ℝ
  md : ℝ
  tvd : ℝ

/-- `degToRad` (App.jsx line 39). -/
noncomputable def degToRad (d : ℝ) : ℝ := d * (Real.pi / 180)

/-- The increments of one minimum-curvature step (App.jsx lines 69-85). -/
structure TrajDelta where
  dN : ℝ
  dE : ℝ
  dTVD : ℝ

/-- One minimum-curvature step between two consecutive stations (App.jsx lines
69-85): dogleg angle with clamped cosine argument, curvature factor `RF`
(identity below the `1e-4` threshold), and the three increments. -/
noncomputable def trajStep (p1 p2 : SurveyStation) : TrajDelta :=
  let dm : ℝ := (p2.md : ℝ) - (p1.md : ℝ)
  let I1 := degToRad (p1.inc : ℝ)
  let I2 := degToRad (p2.inc : ℝ)
  let A1 := degToRad (p1.azi : ℝ)
  let A2 := degToRad (p2.azi : ℝ)
  let dl := Real.arccos (max (-1) (min 1
    (Real.cos (I2 - I1) - Real.sin I1 * Real.sin I2 * (1 - Real.cos (A2 - A1)))))
  let RF : ℝ := if (1 / 10000 : ℝ) < dl then 2 / dl * Real.tan (dl / 2) else 1
  ⟨dm / 2 * (Real.sin I1 * Real.cos A1 + Real.sin I2 * Real.cos A2) * RF,
   dm / 2 * (Real.sin I1 * Real.sin A1 + Real.sin I2 * Real.sin A2) * RF,
   dm / 2 * (Real.cos I1 + Real.cos I2) * RF⟩

/-- The station loop of `calculateTrajectory` (App.jsx lines 63-92): the
previous station advances every iteration, and a pair with non-increasing MD
is skipped (`continue`) without emitting a point or changing the
accumulators. -/
noncomputable def calcTrajAux : SurveyStation → List SurveyStation → ℝ → ℝ → ℝ → List TrajPoint
  | _, [], _, _, _ => []
  | p1, p2 :: rest, N, E, TVD =>
    if p2.md ≤ p1.md then calcTrajAux p2 rest N E TVD
    else
      ⟨E + (trajStep p1 p2).dE, -(TVD + (trajStep p1 p2).dTVD),
        -(N + (trajStep p1 p2).dN), (p2.md : ℝ), TVD + (trajStep p1 p2).dTVD⟩ ::
        calcTrajAux p2 rest (N + (trajStep p1 p2).dN) (E + (trajStep p1 p2).dE)
          (TVD + (trajStep p1 p2).dTVD)

/-- Embedding of `calculateTrajectory` (App.jsx lines 54-94): a seed surface
point at `md = 0`, then one point per strictly-advancing station pair. -/
noncomputable def calculateTrajectory : List SurveyStation → List TrajPoint
  | [] => []
  | p :: rest => ⟨0, 0, 0, 0, 0⟩ :: calcTrajAux p rest 0 0 0

theorem trajStep_vertical (p1 p2 : SurveyStation)
    (h1 : p1.inc = 0) (h2 : p2.inc = 0) :
    trajStep p1 p2 = ⟨0, 0, (p2.md : ℝ) - (p1.md : ℝ)⟩ := by
  unfold trajStep degToRad
  rw [h1, h2]
  have harg : Real.cos ((0 : ℚ) * (Real.pi / 180) - (0 : ℚ) * (Real.pi / 180)) -
      Real.sin ((0 : ℚ) * (Real.pi / 180)) * Real.sin ((0 : ℚ) * (Real.pi / 180)) *
        (1 - Real.cos ((p2.azi : ℝ) * (Real.pi / 180) - (p1.azi : ℝ) * (Real.pi / 180))) = 1 := by
    push_cast
    simp
  simp only [harg]
  have hmin : min (1 : ℝ) 1 = 1 := min_self 1
  have hmax : max (-1 : ℝ) (1 : ℝ) = 1 := max_eq_right (by norm_num)
  rw [hmin, hmax, Real.arccos_one]
  rw [if_neg (by norm_num)]
  push_cast
  simp
  ring

theorem trajStep_dTVD_nonneg (p1 p2 : SurveyStation)
    (h1 : 0 ≤ p1.inc ∧ p1.inc ≤ 90) (h2 : 0 ≤ p2.inc ∧ p2.inc ≤ 90)
    (hmd : p1.md < p2.md) :
    0 ≤ (trajStep p1 p2).dTVD := by
  unfold trajStep
  simp only
  have hpi : (0 : ℝ) < Real.pi := Real.pi_pos
  have hcos : ∀ q : ℚ, 0 ≤ q → q ≤ 90 → 0 ≤ Real.cos (degToRad (q : ℝ)) := by
    intro q hq0 hq90
    apply Real.cos_nonneg_of_mem_Icc
    constructor
    · have : (0 : ℝ) ≤ (q : ℝ) * (Real.pi / 180) := by
        apply mul_nonneg
        · exact_mod_cast hq0
        · positivity
      unfold degToRad
      linarith
    · unfold degToRad
      have hle : (q : ℝ) ≤ 90 := by exact_mod_cast hq90
      have : (q : ℝ) * (Real.pi / 180) ≤ 90 * (Real.pi / 180) := by
        apply mul_le_mul_of_nonneg_right hle
        positivity
      linarith
  have hdm : (0 : ℝ) ≤ ((p2.md : ℝ) - (p1.md : ℝ)) / 2 := by
    have : (p1.md : ℝ) < (p2.md : ℝ) := by exact_mod_cast hmd
    linarith
  have hRF : ∀ dl : ℝ, 0 ≤ dl → dl ≤ Real.pi →
      0 ≤ (if (1 / 10000 : ℝ) < dl then 2 / dl * Real.tan (dl / 2) else 1) := by
    intro dl hdl0 hdlpi
    by_cases hdl : (1 / 10000 : ℝ) < dl
    · rw [if_pos hdl]
      apply mul_nonneg
      · positivity
      · apply Real.tan_nonneg_of_nonneg_of_le_pi_div_two
        · linarith
        · linarith
    · rw [if_neg hdl]
      norm_num
  apply mul_nonneg
  · apply mul_nonneg hdm
    have c1 := hcos p1.inc h1.1 h1.2
    have c2 := hcos p2.inc h2.1 h2.2
    unfold degToRad at c1 c2 ⊢
    linarith
  · exact hRF _ (Real.arccos_nonneg _) (Real.arccos_le_pi _)

theorem calcTrajAux_tvd_chain :
    ∀ (rest : List SurveyStation) (p1 : SurveyStation) (N E TVD : ℝ),
      (0 ≤ p1.inc ∧ p1.inc ≤ 90) →
      (∀ s ∈ rest, 0 ≤ s.inc ∧ s.inc ≤ 90) →
      List.Chain' (fun a b => a.md < b.md) (p1 :: rest) →
      List.Chain' (· ≤ ·) (TVD :: (calcTrajAux p1 rest N E TVD).map TrajPoint.tvd) := by
  intro rest
  induction rest with
  | nil =>
    intro p1 N E TVD _ _ _
    simp [calcTrajAux]
  | cons p2 rest ih =>
    intro p1 N E TVD h1 hrest hchain
    have hmd : p1.md < p2.md := (List.chain'_cons.mp hchain).1
    have hskip : ¬ p2.md ≤ p1.md := not_le.mpr hmd
    rw [calcTrajAux]
    rw [if_neg hskip]
    simp only [List.map_cons]
    rw [List.chain'_cons]
    constructor
    · have := trajStep_dTVD_nonneg p1 p2 h1 (hrest p2 (by simp)) hmd
      show TVD ≤ TVD + (trajStep p1 p2).dTVD
      linarith
    · exact ih p2 (N + (trajStep p1 p2).dN) (E + (trajStep p1 p2).dE)
        (TVD + (trajStep p1 p2).dTVD) (hrest p2 (by simp))
        (fun s hs => hrest s (by simp [hs])) (List.chain'_cons.mp hchain).2

/-- **C6.** For survey stations with strictly increasing MD and inclinations in
`[0, 90]` degrees, the TVD values emitted by `calculateTrajectory` are
non-decreasing from one trajectory point to the next. -/
theorem C6_trajectory_tvd_monotone (stations : List SurveyStation)
    (hinc : ∀ s ∈ stations, 0 ≤ s.inc ∧ s.inc ≤ 90)
    (hmd : List.Chain' (fun a b => a.md < b.md) stations) :
    List.Chain' (· ≤ ·) ((calculateTrajectory stations).map TrajPoint.tvd) := by
  cases stations with
  | nil => simp [calculateTrajectory]
  | cons p rest =>
    rw [calculateTrajectory]
    simp only [List.map_cons]
    exact calcTrajAux_tvd_chain rest p 0 0 0 (hinc p (by simp))
      (fun s hs => hinc s (by simp [hs])) hmd

/-- Witness for C6 at a concrete two-station build-up survey. -/
theorem C6_trajectory_tvd_monotone_witness :
    (∀ s ∈ [(⟨0, 0, 0⟩ : SurveyStation), ⟨100, 45, 10⟩], 0 ≤ s.inc ∧ s.inc ≤ 90) ∧
    List.Chain' (fun a b : SurveyStation => a.md < b.md) [⟨0, 0, 0⟩, ⟨100, 45, 10⟩] ∧
    List.Chain' (· ≤ ·)
      ((calculateTrajectory [⟨0, 0, 0⟩, ⟨100, 45, 10⟩]).map TrajPoint.tvd) := by
  refine ⟨?_, ?_, ?_⟩
  · intro s hs
    simp only [List.mem_cons, List.mem_singleton] at hs
    rcases hs with rfl | rfl | h
    · constructor <;> norm_num
    · constructor <;> norm_num
    · simp at h
  · norm_num [List.chain'_cons]
  · apply C6_trajectory_tvd_monotone
    · intro s hs
      simp only [List.mem_cons, List.mem_singleton] at hs
      rcases hs with rfl | rfl | h
      · constructor <;> norm_num
      · constructor <;> norm_num
      · simp at h
    · norm_num [List.chain'_cons]

end Trajectory

section Vertical

theorem calcTrajAux_vertical :
    ∀ (rest : List SurveyStation) (p1 : SurveyStation) (N E TVD : ℝ),
      p1.inc = 0 → (∀ s ∈ rest, s.inc = 0) →
      List.Chain' (fun a b => a.md < b.md) (p1 :: rest) →
      N = 0 → E = 0 → TVD = (p1.md : ℝ) →
      ∀ pt ∈ calcTrajAux p1 rest N E TVD, pt.tvd = pt.md ∧ pt.x = 0 ∧ pt.z = 0 := by
  intro rest
  induction rest with
  | nil =>
    intro p1 N E TVD _ _ _ _ _ _ pt hpt
    simp [calcTrajAux] at hpt
  | cons p2 rest ih =>
    intro p1 N E TVD h1 hrest hchain hN hE hTVD pt hpt
    have hmd : p1.md < p2.md := (List.chain'_cons.mp hchain).1
    have hskip : ¬ p2.md ≤ p1.md := not_le.mpr hmd
    rw [calcTrajAux, if_neg hskip] at hpt
    have hstep := trajStep_vertical p1 p2 h1 (hrest p2 (by simp))
    rw [hstep] at hpt
    dsimp only at hpt
    rcases List.mem_cons.mp hpt with rfl | hmem
    · subst hN hE hTVD
      refine ⟨by simp, by simp, by simp⟩
    · refine ih p2 (N + 0) (E + 0) (TVD + ((p2.md : ℝ) - (p1.md : ℝ)))
        (hrest p2 (by simp)) (fun s hs => hrest s (by simp [hs]))
        (List.chain'_cons.mp hchain).2 (by rw [hN]; ring) (by rw [hE]; ring)
        (by rw [hTVD]; ring) pt hmem

/-- **C5 (amended).** For an all-vertical survey (every `inc = 0`) whose
stations have strictly increasing MD and whose first station sits at
`md = 0`, every point of `calculateTrajectory` satisfies `tvd = md` and
`north = east = 0` (i.e. `z = 0` and `x = 0`).  As stated over *all*
all-vertical surveys the claim fails: the trajectory seeds its accumulated TVD
at `0` regardless of the first station's MD, so a survey starting at
`md₀ > 0` yields `tvd = md - md₀` (see the counterexample). -/
theorem C5_trajectory_vertical (s0 : SurveyStation) (rest : List SurveyStation)
    (h0 : s0.md = 0) (hinc : ∀ s ∈ s0 :: rest, s.inc = 0)
    (hmd : List.Chain' (fun a b => a.md < b.md) (s0 :: rest)) :
    ∀ pt ∈ calculateTrajectory (s0 :: rest), pt.tvd = pt.md ∧ pt.x = 0 ∧ pt.z = 0 := by
  intro pt hpt
  rw [calculateTrajectory] at hpt
  rcases List.mem_cons.mp hpt with rfl | hmem
  · exact ⟨rfl, rfl, rfl⟩
  · exact calcTrajAux_vertical rest s0 0 0 0 (hinc s0 (by simp))
      (fun s hs => hinc s (by simp [hs])) hmd rfl rfl (by rw [h0]; simp) pt hmem

/-- Counterexample for C5 as stated: the all-vertical two-station survey
`[{md 1}, {md 2}]` (first station at `md = 1 > 0`) produces a trajectory point
with `md = 2` but `tvd = 1 ≠ 2`; the quantification over surveys whose first
station has `md > 0` is therefore false. -/
theorem C5_counterexample :
    ((calculateTrajectory [⟨1, 0, 0⟩, ⟨2, 0, 0⟩]).getD 1 ⟨0, 0, 0, 0, 0⟩).md = 2 ∧
    ((calculateTrajectory [⟨1, 0, 0⟩, ⟨2, 0, 0⟩]).getD 1 ⟨0, 0, 0, 0, 0⟩).tvd = 1 ∧
    (∀ s ∈ [(⟨1, 0, 0⟩ : SurveyStation), ⟨2, 0, 0⟩], s.inc = 0) ∧
    (1 : ℝ) ≠ 2 := by
  have hstep := trajStep_vertical ⟨1, 0, 0⟩ ⟨2, 0, 0⟩ rfl rfl
  have hcalc : calculateTrajectory [⟨1, 0, 0⟩, ⟨2, 0, 0⟩] =
      [⟨0, 0, 0, 0, 0⟩,
       ⟨0 + (trajStep ⟨1, 0, 0⟩ ⟨2, 0, 0⟩).dE,
        -(0 + (trajStep ⟨1, 0, 0⟩ ⟨2, 0, 0⟩).dTVD),
        -(0 + (trajStep ⟨1, 0, 0⟩ ⟨2, 0, 0⟩).dN),
        (((2 : ℚ)) : ℝ), 0 + (trajStep ⟨1, 0, 0⟩ ⟨2, 0, 0⟩).dTVD⟩] := by
    rw [calculateTrajectory, calcTrajAux, if_neg (show ¬ ((2 : ℚ) ≤ 1) by norm_num),
      calcTrajAux]
  refine ⟨?_, ?_, ?_, by norm_num⟩
  · rw [hcalc]
    norm_num
  · rw [hcalc, hstep]
    norm_num
  · intro s hs
    rcases List.mem_cons.mp hs with rfl | hs
    · rfl
    · rcases List.mem_cons.mp hs with rfl | hs
      · rfl
      · simp at hs

end Vertical

/-- Witness for C5 (amended): a concrete all-vertical survey starting at
`md = 0` satisfies the hypotheses, and every trajectory point has `tvd = md`
and zero north/east. -/
theorem C5_trajectory_vertical_witness :
    ((⟨0, 0, 0⟩ : SurveyStation).md = 0) ∧
    (∀ s ∈ [(⟨0, 0, 0⟩ : SurveyStation), ⟨5, 0, 0⟩], s.inc = 0) ∧
    List.Chain' (fun a b : SurveyStation => a.md < b.md) [⟨0, 0, 0⟩, ⟨5, 0, 0⟩] ∧
    ∀ pt ∈ calculateTrajectory [⟨0, 0, 0⟩, ⟨5, 0, 0⟩],
      pt.tvd = pt.md ∧ pt.x = 0 ∧ pt.z = 0 := by
  have hmem : ∀ s ∈ [(⟨0, 0, 0⟩ : SurveyStation), ⟨5, 0, 0⟩], s.inc = 0 := by
    intro s hs
    rcases List.mem_cons.mp hs with rfl | hs
    · rfl
    · rcases List.mem_cons.mp hs with rfl | hs
      · rfl
      · simp at hs
  have hch : List.Chain' (fun a b : SurveyStation => a.md < b.md)
      [⟨0, 0, 0⟩, ⟨5, 0, 0⟩] := by
    norm_num [List.chain'_cons]
  exact ⟨rfl, hmem, hch, C5_trajectory_vertical ⟨0, 0, 0⟩ [⟨5, 0, 0⟩] rfl hmem hch⟩

section Casing

/-- OD converted to inches (App.jsx line 98). -/
noncomputable def odInchOf (od : ℝ) (uOD : String) : ℝ := if uOD = "in" then od else od / 2.54

/-- Linear weight converted to lb/ft (App.jsx line 99). -/
noncomputable def wLbFtOf (w : ℝ) (uW : String) : ℝ := if uW = "lb/ft" then w else w * 0.671969

/-- The radicand `odInch² - wLbFt / 2.67` (App.jsx line 100). -/
noncomputable def idSqOf (od w : ℝ) (uOD uW : String) : ℝ :=
  odInchOf od uOD * odInchOf od uOD - wLbFtOf w uW / 2.67

/-- Embedding of `calculateIDFromODWeight` (App.jsx lines 96-107).  The guard
`!od || !weight || od <= 0 || weight <= 0` rejects exactly the non-positive
inputs (`!x` on a number is truthy at `0`); a non-positive radicand also gives
`null`; otherwise the root is converted back to the requested unit and rounded
to 3 decimals. -/
noncomputable def calculateIDFromODWeight (od weight : ℝ)
    (uOD uW uID : String) : Option ℝ :=
  if od ≤ 0 ∨ weight ≤ 0 then none
  else if 0 < idSqOf od weight uOD uW then
    some (roundDecR 3 (if uID = "in" then Real.sqrt (idSqOf od weight uOD uW)
      else Real.sqrt (idSqOf od weight uOD uW) * 2.54))
  else none

theorem roundDecR_le_add (x : ℝ) : roundDecR 3 x ≤ x + 1 / 2000 := by
  unfold roundDecR
  have h : |x * 10 ^ 3 - ((round (x * 10 ^ 3) : ℤ) : ℝ)| ≤ 1 / 2 :=
    abs_sub_round (x * 10 ^ 3)
  have h2 : ((round (x * 10 ^ 3) : ℤ) : ℝ) ≤ x * 10 ^ 3 + 1 / 2 := by
    have := abs_le.mp h
    linarith [this.1]
  have h3 : (10 : ℝ) ^ 3 = 1000 := by norm_num
  rw [h3] at h2 ⊢
  linarith

/-- **C8 (amended).** `calculateIDFromODWeight` returns `none` exactly when an
input is non-positive or the radicand `odInch² - wLbFt/2.67` (after unit
conversion cm→in ÷2.54, kg/m→lb/ft ×0.671969) is non-positive; otherwise it
returns the positive square root converted to the requested unit, rounded to 3
decimals.  When the OD and ID units match, the unrounded converted root is
strictly below `od`, so the returned id is below `od + 1/2000`; the original
claim's strict `id < od` fails only because the 3-decimal rounding can land on
or just above `od` (see the counterexample). -/
theorem C8_casing_id (od weight : ℝ) (uOD uW uID : String) :
    (calculateIDFromODWeight od weight uOD uW uID = none ↔
      od ≤ 0 ∨ weight ≤ 0 ∨ idSqOf od weight uOD uW ≤ 0) ∧
    (∀ v, calculateIDFromODWeight od weight uOD uW uID = some v →
      0 < Real.sqrt (idSqOf od weight uOD uW) ∧
      v = roundDecR 3 (if uID = "in" then Real.sqrt (idSqOf od weight uOD uW)
        else Real.sqrt (idSqOf od weight uOD uW) * 2.54) ∧
      ((uOD = "in" ↔ uID = "in") → v < od + 1 / 2000)) := by
  constructor
  · by_cases hg : od ≤ 0 ∨ weight ≤ 0
    · rw [calculateIDFromODWeight, if_pos hg]
      refine ⟨fun _ => ?_, fun _ => rfl⟩
      rcases hg with h | h
      · exact Or.inl h
      · exact Or.inr (Or.inl h)
    · rw [calculateIDFromODWeight, if_neg hg]
      by_cases hq : 0 < idSqOf od weight uOD uW
      · rw [if_pos hq]
        simp only [reduceCtorEq, false_iff]
        push_neg at hg ⊢
        exact ⟨hg.1, hg.2, hq⟩
      · rw [if_neg hq]
        simp only [true_iff]
        right; right
        linarith [not_lt.mp hq]
  · intro v hv
    rw [calculateIDFromODWeight] at hv
    by_cases hg : od ≤ 0 ∨ weight ≤ 0
    · rw [if_pos hg] at hv
      exact absurd hv (by simp)
    · rw [if_neg hg] at hv
      by_cases hq : 0 < idSqOf od weight uOD uW
      · rw [if_pos hq] at hv
        have hvv : v = roundDecR 3 (if uID = "in" then Real.sqrt (idSqOf od weight uOD uW)
            else Real.sqrt (idSqOf od weight uOD uW) * 2.54) := by
          exact (Option.some_inj.mp hv).symm
        push_neg at hg
        have hod : 0 < od := lt_of_not_ge (by exact_mod_cast fun h => absurd h (not_le.mpr hg.1))
        refine ⟨Real.sqrt_pos.mpr hq, hvv, ?_⟩
        intro hmatch
        have hw : 0 < weight := hg.2
        have hwpos : 0 < wLbFtOf weight uW / 2.67 := by
          unfold wLbFtOf
          by_cases h : uW = "lb/ft"
          · rw [if_pos h]; positivity
          · rw [if_neg h]; positivity
        by_cases hin : uOD = "in"
        · have hinID : uID = "in" := hmatch.mp hin
          have hsq : Real.sqrt (idSqOf od weight uOD uW) < od := by
            have hlt : idSqOf od weight uOD uW < od ^ 2 := by
              unfold idSqOf odInchOf
              rw [if_pos hin]
              nlinarith
            have := Real.sqrt_lt_sqrt (le_of_lt hq) hlt
            rwa [Real.sqrt_sq (le_of_lt hod)] at this
          rw [hvv, if_pos hinID]
          have := roundDecR_le_add (Real.sqrt (idSqOf od weight uOD uW))
          linarith
        · have hinID : uID ≠ "in" := fun h => hin (hmatch.mpr h)
          have hsq : Real.sqrt (idSqOf od weight uOD uW) < od / 2.54 := by
            have hlt : idSqOf od weight uOD uW < (od / 2.54) ^ 2 := by
              unfold idSqOf odInchOf
              rw [if_neg hin]
              nlinarith
            have h254 : (0 : ℝ) < od / 2.54 := by positivity
            have := Real.sqrt_lt_sqrt (le_of_lt hq) hlt
            rwa [Real.sqrt_sq (le_of_lt h254)] at this
          rw [hvv, if_neg hinID]
          have hb := roundDecR_le_add (Real.sqrt (idSqOf od weight uOD uW) * 2.54)
          have hmul : Real.sqrt (idSqOf od weight uOD uW) * 2.54 < od := by
            have h254 : (0 : ℝ) < 2.54 := by norm_num
            have := mul_lt_mul_of_pos_right hsq h254
            calc Real.sqrt (idSqOf od weight uOD uW) * 2.54
                < od / 2.54 * 2.54 := this
              _ = od := by field_simp
          linarith
      · rw [if_neg hq] at hv
        exact absurd hv (by simp)

end Casing

/-- Counterexample for C8 as stated: with `od = 1` inch and
`weight = 0.001 lb/ft` the radicand is `2669/2670`, its root is about
`0.99981`, and the 3-decimal rounding returns exactly `1.000 = od`, so the
returned id is *not* strictly less than the given od. -/
theorem C8_counterexample :
    calculateIDFromODWeight 1 (1 / 1000) "in" "lb/ft" "in" = some 1 ∧
    ¬ ((1 : ℝ) < 1) := by
  refine ⟨?_, lt_irrefl 1⟩
  have hq : idSqOf 1 (1 / 1000) "in" "lb/ft" = 2669 / 2670 := by
    unfold idSqOf odInchOf wLbFtOf
    rw [if_pos rfl, if_pos rfl]
    norm_num
  rw [calculateIDFromODWeight, if_neg (by norm_num), hq, if_pos (by norm_num),
    if_pos rfl]
  congr 1
  unfold roundDecR
  have h1 : Real.sqrt (2669 / 2670) < 1 := by
    rw [show (1 : ℝ) = Real.sqrt 1 from Real.sqrt_one.symm]
    exact Real.sqrt_lt_sqrt (by norm_num) (by norm_num)
  have h2 : (0.9995 : ℝ) < Real.sqrt (2669 / 2670) := by
    have h : (0.9995 : ℝ) = Real.sqrt (0.9995 ^ 2) := by
      rw [Real.sqrt_sq (by norm_num)]
    rw [h]
    exact Real.sqrt_lt_sqrt (by positivity) (by norm_num)
  have hr : round (Real.sqrt (2669 / 2670) * 10 ^ 3) = 1000 := by
    rw [round_eq]
    apply Int.floor_eq_iff.mpr
    constructor
    · push_cast
      nlinarith
    · push_cast
      nlinarith
  rw [hr]
  norm_num

/-- Witness for C8 (amended): a physically sensible input (`od = 10 cm`,
`weight = 20 kg/m`, matching cm units) is accepted, i.e. the `none` conditions
of the theorem do not hold there. -/
theorem C8_casing_id_witness :
    calculateIDFromODWeight 10 20 "cm" "kg/m" "cm" ≠ none := by
  have h := (C8_casing_id 10 20 "cm" "kg/m" "cm").1
  intro hc
  have h2 := h.mp hc
  rcases h2 with h2 | h2 | h2
  · norm_num at h2
  · norm_num at h2
  · unfold idSqOf odInchOf wLbFtOf at h2
    rw [if_neg (by decide), if_neg (by decide)] at h2
    norm_num at h2

section Pressure

/-- A fluid layer as edited in the UI: specific gravity and TVD height
percentage (the layer `type` string plays no computational role in the
pressure profile). -/
structure FluidLayer where
  sg : ℚ
  percent : ℚ
deriving DecidableEq

/-- A laid-out fluid band with its top and bottom TVD (App.jsx 1116-1122). -/
structure FluidSection where
  sg : ℚ
  startTVD : ℚ
  endTVD : ℚ
deriving DecidableEq

/-- Lays the declared layers out as contiguous TVD bands from the surface
downwards, in declaration order, each of height `percent/100 * maxTVD`
(App.jsx 1116-1122). -/
def fluidSections (maxTVD : ℚ) : List FluidLayer → ℚ → List FluidSection
  | [], _ => []
  | f :: rest, cur =>
    ⟨f.sg, cur, cur + f.percent / 100 * maxTVD⟩ ::
      fluidSections maxTVD rest (cur + f.percent / 100 * maxTVD)

/-- The per-sample hydrostatic accumulation (App.jsx 1125-1129): full weight
of bands whose bottom is above the sample TVD, partial weight of the band
containing it, nothing for bands below; `0.0981 = 981/10000` bar per metre
per SG unit. -/
def hydroPressure (secs : List FluidSection) (tvd whp : ℚ) : ℚ :=
  secs.foldl (fun p f =>
    if f.endTVD < tvd then p + (f.endTVD - f.startTVD) * f.sg * (981 / 10000)
    else if f.startTVD < tvd then p + (tvd - f.startTVD) * f.sg * (981 / 10000)
    else p) whp

/-- Embedding of the `pressureData` memo of `StepFluids` (App.jsx 1111-1133).
The source iterates `for (md = 0; md <= maxMD; md += maxMD/50)`; for
`maxMD > 0` this visits exactly the 51 samples `md = k * (maxMD/50)`,
`k = 0..50`, realised here as a map over `List.range 51` (for `maxMD ≤ 0` the
source loop degenerates; the claims concern positive depth only).  Each
emitted pair is `(md.toFixed(0), pressure.toFixed(1))`. -/
def pressureData (layers : List FluidLayer) (whp maxMD maxTVD : ℚ)
    (getTVD : ℚ → ℚ) : List (ℚ × ℚ) :=
  (List.range 51).map fun (k : ℕ) =>
    (roundDec 0 ((k : ℚ) * (maxMD / 50)),
     roundDec 1 (hydroPressure (fluidSections maxTVD layers 0)
       (getTVD ((k : ℚ) * (maxMD / 50))) whp))

/-- The submerged height of a band `[s, e]` at depth `tvd`. -/
def submergedHeight (s e tvd : ℚ) : ℚ := max 0 (min tvd e - s)

/-- The specification's hydrostatic sum: `whp` plus, over the laid-out bands,
the submerged height times `sg` times `0.0981`. -/
def hydroSpec (layers : List FluidLayer) (maxTVD tvd whp : ℚ) : ℚ :=
  whp + ((fluidSections maxTVD layers 0).map
    (fun f => submergedHeight f.startTVD f.endTVD tvd * f.sg * (981 / 10000))).sum

theorem hydroPressure_band (f : FluidSection) (tvd p : ℚ)
    (hwf : f.startTVD ≤ f.endTVD) :
    (if f.endTVD < tvd then p + (f.endTVD - f.startTVD) * f.sg * (981 / 10000)
     else if f.startTVD < tvd then p + (tvd - f.startTVD) * f.sg * (981 / 10000)
     else p) =
    p + submergedHeight f.startTVD f.endTVD tvd * f.sg * (981 / 10000) := by
  unfold submergedHeight
  by_cases h1 : f.endTVD < tvd
  · rw [if_pos h1]
    have hmin : min tvd f.endTVD = f.endTVD := min_eq_right (le_of_lt h1)
    have hmax : max 0 (f.endTVD - f.startTVD) = f.endTVD - f.startTVD := by
      apply max_eq_right
      linarith
    rw [hmin, hmax]
  · rw [if_neg h1]
    by_cases h2 : f.startTVD < tvd
    · rw [if_pos h2]
      have hmin : min tvd f.endTVD = tvd := min_eq_left (not_lt.mp h1)
      have hmax : max 0 (tvd - f.startTVD) = tvd - f.startTVD := by
        apply max_eq_right
        linarith
      rw [hmin, hmax]
    · rw [if_neg h2]
      have hmin : min tvd f.endTVD = tvd := min_eq_left (not_lt.mp h1)
      have hmax : max 0 (tvd - f.startTVD) = 0 := by
        apply max_eq_left
        linarith [not_lt.mp h2]
      rw [hmin, hmax]
      ring

theorem hydroPressure_eq_spec_sum :
    ∀ (secs : List FluidSection) (tvd whp : ℚ),
      (∀ f ∈ secs, f.startTVD ≤ f.endTVD) →
      hydroPressure secs tvd whp = whp +
        (secs.map (fun f => submergedHeight f.startTVD f.endTVD tvd * f.sg *
          (981 / 10000))).sum := by
  intro secs
  induction secs with
  | nil =>
    intro tvd whp _
    simp [hydroPressure]
  | cons f rest ih =>
    intro tvd whp hwf
    unfold hydroPressure
    rw [List.foldl_cons]
    have hstep := hydroPressure_band f tvd whp (hwf f (by simp))
    rw [hstep]
    have := ih tvd (whp + submergedHeight f.startTVD f.endTVD tvd * f.sg * (981 / 10000))
      (fun g hg => hwf g (by simp [hg]))
    unfold hydroPressure at this
    rw [this]
    simp only [List.map_cons, List.sum_cons]
    ring

theorem fluidSections_wf (maxTVD : ℚ) (htvd : 0 ≤ maxTVD) :
    ∀ (layers : List FluidLayer) (cur : ℚ),
      (∀ f ∈ layers, 0 ≤ f.percent) →
      ∀ s ∈ fluidSections maxTVD layers cur, s.startTVD ≤ s.endTVD := by
  intro layers
  induction layers with
  | nil =>
    intro cur _ s hs
    simp [fluidSections] at hs
  | cons f rest ih =>
    intro cur hp s hs
    rw [fluidSections] at hs
    rcases List.mem_cons.mp hs with rfl | hmem
    · have h0 : 0 ≤ f.percent := hp f (by simp)
      have : 0 ≤ f.percent / 100 * maxTVD := by positivity
      simp only
      linarith
    · exact ih (cur + f.percent / 100 * maxTVD) (fun g hg => hp g (by simp [hg])) s hmem

/-- **C9.** The pressure profile samples MD as the 51 points `k * (maxMD/50)`,
`k = 0..50`; the displayed MD is that value rounded to an integer, and the
displayed pressure is `whp` plus the hydrostatic sum over the declared fluid
bands (each of TVD height `percent/100 * maxTVD`, laid out top-down in
declaration order) of submerged height times `sg` times `0.0981`, rounded to
one decimal — hence within `1/20` of the exact sum. -/
theorem C9_pressure_profile (layers : List FluidLayer) (whp maxMD maxTVD : ℚ)
    (getTVD : ℚ → ℚ) (hmax : 0 < maxMD) (htvd : 0 ≤ maxTVD)
    (hpct : ∀ f ∈ layers, 0 ≤ f.percent) :
    (pressureData layers whp maxMD maxTVD getTVD).length = 51 ∧
    ∀ k, k < 51 →
      (pressureData layers whp maxMD maxTVD getTVD).getD k (0, 0) =
        (roundDec 0 ((k : ℚ) * (maxMD / 50)),
         roundDec 1 (hydroSpec layers maxTVD (getTVD ((k : ℚ) * (maxMD / 50))) whp)) ∧
      |((pressureData layers whp maxMD maxTVD getTVD).getD k (0, 0)).2 -
        hydroSpec layers maxTVD (getTVD ((k : ℚ) * (maxMD / 50))) whp| ≤ 1 / 20 := by
  have hspec : ∀ tvd, hydroPressure (fluidSections maxTVD layers 0) tvd whp =
      hydroSpec layers maxTVD tvd whp := by
    intro tvd
    exact hydroPressure_eq_spec_sum (fluidSections maxTVD layers 0) tvd whp
      (fluidSections_wf maxTVD htvd layers 0 hpct)
  constructor
  · unfold pressureData
    rw [List.length_map, List.length_range]
  · intro k hk
    have hget : (pressureData layers whp maxMD maxTVD getTVD).getD k (0, 0) =
        (roundDec 0 ((k : ℚ) * (maxMD / 50)),
         roundDec 1 (hydroPressure (fluidSections maxTVD layers 0)
           (getTVD ((k : ℚ) * (maxMD / 50))) whp)) := by
      unfold pressureData
      rw [List.getD_eq_getElem _ _ (by simpa using hk)]
      simp only [List.getElem_map, List.getElem_range]
    rw [hget, hspec]
    refine ⟨rfl, ?_⟩
    simp only
    unfold roundDec
    set q := hydroSpec layers maxTVD (getTVD ((k : ℚ) * (maxMD / 50))) whp with hq
    have habs : |q * 10 ^ 1 - ((round (q * 10 ^ 1) : ℤ) : ℚ)| ≤ 1 / 2 :=
      abs_sub_round (q * 10 ^ 1)
    have h10 : (10 : ℚ) ^ 1 = 10 := by norm_num
    rw [h10] at habs ⊢
    rw [abs_sub_comm] at habs
    rw [abs_le] at habs ⊢
    constructor
    · have := habs.1
      linarith
    · have := habs.2
      linarith

/-- Witness for C9: a single fluid layer with `sg = 1` covering 100% of a
vertical well (`getTVD = id`) of TVD 1000 m at `whp = 0` gives, at the 51st
sample (`md = 1000`), a displayed pressure within `±0.1` of `98.1` bar (in
fact exactly `98.1`). -/
theorem C9_pressure_profile_witness :
    (0 : ℚ) < 1000 ∧ (0 : ℚ) ≤ 1000 ∧
    (∀ f ∈ [(⟨1, 100⟩ : FluidLayer)], 0 ≤ f.percent) ∧
    |((pressureData [⟨1, 100⟩] 0 1000 1000 (fun q => q)).getD 50 (0, 0)).2 -
      981 / 10| ≤ 1 / 10 := by
  have hpct : ∀ f ∈ [(⟨1, 100⟩ : FluidLayer)], 0 ≤ f.percent := by
    intro f hf
    rcases List.mem_singleton.mp hf with rfl
    norm_num
  refine ⟨by norm_num, by norm_num, hpct, ?_⟩
  have h := (C9_pressure_profile [⟨1, 100⟩] 0 1000 1000 (fun q => q)
    (by norm_num) (by norm_num) hpct).2 50 (by norm_num)
  have hcast : ((50 : ℕ) : ℚ) * ((1000 : ℚ) / 50) = 1000 := by norm_num
  rw [hcast] at h
  rw [h.1]
  have hsum : hydroSpec [⟨1, 100⟩] 1000 ((fun (q : ℚ) => q) 1000) 0 = 981 / 10 := by
    norm_num [hydroSpec, fluidSections, submergedHeight]
  simp only
  rw [hsum]
  have hround : roundDec 1 ((981 : ℚ) / 10) = 981 / 10 := by
    unfold roundDec
    rw [round_eq]
    norm_num
  rw [hround]
  norm_num

end Pressure

section Stitcher

/-- One parsed simulation sample `{md, rih, pooh}` (the shape produced by
`parseSimulationCSV`, App.jsx 338-361); unreadable forces are `null`. -/
structure SimSample where
  md : ℚ
  rih : Option ℚ
  pooh : Option ℚ
deriving DecidableEq

/-- One stitched chart point (App.jsx 3440-3446). -/
structure StitchedPoint where
  md : ℚ
  rih_standard_1 : Option ℚ
  rih_standard_2 : Option ℚ
  rih_tractor : Option ℚ
  pooh : Option ℚ
deriving DecidableEq

instance : Inhabited StitchedPoint := ⟨⟨0, none, none, none, none⟩⟩

/-- Proximity lookup (App.jsx 3437-3438 and 3479): the first sample within 0.5
depth units of `md`. -/
def findNear (l : List SimSample) (md : ℚ) : Option SimSample :=
  l.find? fun p => decide (|p.md - md| < 1 / 2)

/-- `Math.max(...rih.map(p => p.md))` (App.jsx 3413) for a non-empty list (the
source value for an empty spread is `-Infinity`, which has no counterpart in
`ℚ`; every claim supplies a non-empty `rih`). -/
def mdsMax : List SimSample → ℚ
  | [] => 0
  | p :: ps => (ps.map SimSample.md).foldl max p.md

/-- `md < stopDepth`, where `none` plays the source's `Infinity` (App.jsx
3414, 3460). -/
def ltStop (md : ℚ) : Option ℚ → Bool
  | none => true
  | some s => decide (md < s)

/-- The effective force depth `tractorDepth || Math.max(...)` (App.jsx 3413):
the given depth when non-zero, else the maximum MD of the `rih` file. -/
def effForceDepth (rih : List SimSample) (td : ℚ) : ℚ :=
  if td ≠ 0 then td else mdsMax rih

/-- The effective stop depth (App.jsx 3414): the given depth when strictly
above the force depth, else `Infinity` (`none`). -/
def effStopDepth (fd std : ℚ) : Option ℚ :=
  if fd < std then some std else none

/-- The union of all MD values of the input files, deduplicated by exact
equality and sorted ascending (App.jsx 3425-3429: a `Set` spread followed by a
numeric sort). -/
def unionMDs (rih tractor : List SimSample) (pooh? : Option (List SimSample)) :
    List ℚ :=
  ((rih.map SimSample.md ++ tractor.map SimSample.md ++
      (match pooh? with | some l => l.map SimSample.md | none => [])).dedup).mergeSort

/-- The POOH column of a stitched point (App.jsx 3416-3419 and 3477-3485):
proximity match in the override file when one is present, else the tractor
file's POOH reading (the `rih` fall-through of the source is unreachable in
`handleStitch`, which requires the tractor file). -/
def poohOf (tractor : List SimSample) (pooh? : Option (List SimSample))
    (md : ℚ) : Option ℚ :=
  match pooh? with
  | some ov => (findNear ov md).bind SimSample.pooh
  | none => (findNear tractor md).bind SimSample.pooh

/-- The mutable trackers of the stitch loop (App.jsx 3431-3434): last Phase-1
value/index and last Phase-2 value/index; the source's `-1` index sentinel is
`none`. -/
structure StitchSt where
  s1v : Option ℚ
  s1i : Option ℕ
  trv : Option ℚ
  tri : Option ℕ
deriving DecidableEq

/-- The body of the stitch loop for one union MD (App.jsx 3436-3488). -/
def stitchStep (rih tractor : List SimSample) (pooh? : Option (List SimSample))
    (fd : ℚ) (sd : Option ℚ) (md : ℚ) (idx : ℕ) (st : StitchSt) :
    StitchedPoint × StitchSt :=
  if md < fd then
    match findNear rih md with
    | some p => (⟨md, p.rih, none, none, poohOf tractor pooh? md⟩,
        { st with s1v := p.rih, s1i := some idx })
    | none => (⟨md, none, none, none, poohOf tractor pooh? md⟩, st)
  else if fd ≤ md ∧ ltStop md sd = true then
    match findNear tractor md with
    | some p => (⟨md, none, none, p.rih, poohOf tractor pooh? md⟩,
        { st with trv := p.rih, tri := some idx })
    | none => (⟨md, none, none, none, poohOf tractor pooh? md⟩, st)
  else
    match findNear rih md with
    | some p => (⟨md, none, p.rih, none, poohOf tractor pooh? md⟩, st)
    | none =>
      match st.s1v with
      | some v => (⟨md, none, some v, none, poohOf tractor pooh? md⟩, st)
      | none => (⟨md, none, none, none, poohOf tractor pooh? md⟩, st)

/-- The stitch loop over the union MDs (the `allMDs.forEach` of App.jsx
3436-3488), returning the merged points and the final tracker state. -/
def stitchLoop (rih tractor : List SimSample) (pooh? : Option (List SimSample))
    (fd : ℚ) (sd : Option ℚ) :
    List ℚ → ℕ → StitchSt → List StitchedPoint × StitchSt
  | [], _, st => ([], st)
  | md :: rest, idx, st =>
    let r := stitchStep rih tractor pooh? fd sd md idx st
    let rr := stitchLoop rih tractor pooh? fd sd rest (idx + 1) r.2
    (r.1 :: rr.1, rr.2)

/-- Connector pass 1 (App.jsx 3490-3498): when a last Phase-1 matched point
exists, and it lies below the stop depth with a null `rih_tractor`, its
`rih_tractor` becomes the last Phase-1 value. -/
def conn1 (sd : Option ℚ) (merged : List StitchedPoint) (st : StitchSt) :
    List StitchedPoint :=
  match st.s1i with
  | some i =>
    match merged.get? i with
    | some pt =>
      if ltStop pt.md sd = true ∧ pt.rih_tractor = none then
        merged.set i { pt with rih_tractor := st.s1v }
      else merged
    | none => merged
  | none => merged

/-- Connector pass 2 (App.jsx 3500-3510): when a last Phase-2 matched point
exists and the immediately following point exists and one of the two carries a
`rih_standard_2` reading, a null `rih_standard_2` on the Phase-2 point becomes
the last Phase-2 value. -/
def conn2 (merged : List StitchedPoint) (st : StitchSt) : List StitchedPoint :=
  match st.tri with
  | some j =>
    match merged.get? j with
    | some pt =>
      match merged.get? (j + 1) with
      | some nxt =>
        if (nxt.rih_standard_2 ≠ none ∨ pt.rih_standard_2 ≠ none) ∧
            pt.rih_standard_2 = none then
          merged.set j { pt with rih_standard_2 := st.trv }
        else merged
      | none => merged
    | none => merged
  | none => merged

/-- The two connector passes (App.jsx 3490-3510), applied to the merged list
after the main loop. -/
def applyConnectors (sd : Option ℚ) (merged : List StitchedPoint)
    (st : StitchSt) : List StitchedPoint :=
  conn2 (conn1 sd merged st) st

/-- Embedding of the stitching of `handleStitch` (App.jsx 3407-3523):
effective force/stop depths, the main pass over the sorted deduplicated MD
union, then the connector passes. -/
def stitchRunData (rih tractor : List SimSample) (pooh? : Option (List SimSample))
    (td std : ℚ) : List StitchedPoint :=
  let fd := effForceDepth rih td
  let sd := effStopDepth fd std
  let r := stitchLoop rih tractor pooh? fd sd (unionMDs rih tractor pooh?) 0
    ⟨none, none, none, none⟩
  applyConnectors sd r.1 r.2

end Stitcher

section StitcherLemmas

variable (rih tractor : List SimSample) (pooh? : Option (List SimSample))
variable (fd : ℚ) (sd : Option ℚ)

theorem stitchStep_snd (md : ℚ) (idx : ℕ) (st : StitchSt) :
    (stitchStep rih tractor pooh? fd sd md idx st).2 =
      if md < fd then
        match findNear rih md with
        | some p => { st with s1v := p.rih, s1i := some idx }
        | none => st
      else if fd ≤ md ∧ ltStop md sd = true then
        match findNear tractor md with
        | some p => { st with trv := p.rih, tri := some idx }
        | none => st
      else st := by
  unfold stitchStep
  by_cases h1 : md < fd
  · rw [if_pos h1, if_pos h1]
    cases findNear rih md <;> rfl
  · rw [if_neg h1, if_neg h1]
    by_cases h2 : fd ≤ md ∧ ltStop md sd = true
    · rw [if_pos h2, if_pos h2]
      cases findNear tractor md <;> rfl
    · rw [if_neg h2, if_neg h2]
      cases findNear rih md
      · cases st.s1v <;> rfl
      · rfl

theorem stitchStep_fst_p1 (md : ℚ) (idx : ℕ) (st : StitchSt) (h : md < fd) :
    (stitchStep rih tractor pooh? fd sd md idx st).1 =
      ⟨md, (findNear rih md).bind SimSample.rih, none, none,
        poohOf tractor pooh? md⟩ := by
  unfold stitchStep
  rw [if_pos h]
  cases findNear rih md <;> rfl

theorem stitchStep_fst_p2 (md : ℚ) (idx : ℕ) (st : StitchSt) (h1 : ¬ md < fd)
    (h2 : fd ≤ md ∧ ltStop md sd = true) :
    (stitchStep rih tractor pooh? fd sd md idx st).1 =
      ⟨md, none, none, (findNear tractor md).bind SimSample.rih,
        poohOf tractor pooh? md⟩ := by
  unfold stitchStep
  rw [if_neg h1, if_pos h2]
  cases findNear tractor md <;> rfl

theorem stitchStep_fst_p3 (md : ℚ) (idx : ℕ) (st : StitchSt) (h1 : ¬ md < fd)
    (h2 : ¬ (fd ≤ md ∧ ltStop md sd = true)) :
    (stitchStep rih tractor pooh? fd sd md idx st).1 =
      ⟨md, none, (findNear rih md).elim st.s1v SimSample.rih, none,
        poohOf tractor pooh? md⟩ := by
  unfold stitchStep
  rw [if_neg h1, if_neg h2]
  cases findNear rih md
  · cases st.s1v <;> rfl
  · rfl

theorem stitchStep_fst_p3_miss (md : ℚ) (idx : ℕ) (st : StitchSt) (h1 : ¬ md < fd)
    (h2 : ¬ (fd ≤ md ∧ ltStop md sd = true)) (hf : findNear rih md = none) :
    (stitchStep rih tractor pooh? fd sd md idx st).1 =
      ⟨md, none, st.s1v, none, poohOf tractor pooh? md⟩ := by
  unfold stitchStep
  rw [if_neg h1, if_neg h2, hf]
  cases hsv : st.s1v <;> rfl

theorem stitchStep_fst_md (md : ℚ) (idx : ℕ) (st : StitchSt) :
    ((stitchStep rih tractor pooh? fd sd md idx st).1).md = md := by
  unfold stitchStep
  by_cases h1 : md < fd
  · rw [if_pos h1]
    cases findNear rih md <;> rfl
  · rw [if_neg h1]
    by_cases h2 : fd ≤ md ∧ ltStop md sd = true
    · rw [if_pos h2]
      cases findNear tractor md <;> rfl
    · rw [if_neg h2]
      cases findNear rih md
      · cases st.s1v <;> rfl
      · rfl

theorem stitchLoop_length :
    ∀ (mds : List ℚ) (idx : ℕ) (st : StitchSt),
      ((stitchLoop rih tractor pooh? fd sd mds idx st).1).length = mds.length := by
  intro mds
  induction mds with
  | nil => intro idx st; rfl
  | cons md rest ih =>
    intro idx st
    unfold stitchLoop
    simp only [List.length_cons]
    rw [ih]

theorem stitchLoop_getD :
    ∀ (mds : List ℚ) (idx : ℕ) (st : StitchSt) (i : ℕ), i < mds.length →
      ((stitchLoop rih tractor pooh? fd sd mds idx st).1).getD i default =
        (stitchStep rih tractor pooh? fd sd (mds.getD i 0) (idx + i)
          ((stitchLoop rih tractor pooh? fd sd (mds.take i) idx st).2)).1 := by
  intro mds
  induction mds with
  | nil =>
    intro idx st i hi
    simp at hi
  | cons md rest ih =>
    intro idx st i hi
    cases i with
    | zero =>
      simp only [List.take_zero, List.getD_cons_zero]
      rfl
    | succ i =>
      have hi' : i < rest.length := by simpa using hi
      have h1 : ((md :: rest) : List ℚ).getD (i + 1) 0 = rest.getD i 0 := rfl
      have h2 : ((md :: rest) : List ℚ).take (i + 1) = md :: rest.take i := rfl
      have hidx : idx + (i + 1) = (idx + 1) + i := by omega
      rw [h1, h2, hidx]
      show ((stitchLoop rih tractor pooh? fd sd rest (idx + 1)
          (stitchStep rih tractor pooh? fd sd md idx st).2).1).getD i default =
        (stitchStep rih tractor pooh? fd sd (rest.getD i 0) (idx + 1 + i)
          ((stitchLoop rih tractor pooh? fd sd (rest.take i) (idx + 1)
            (stitchStep rih tractor pooh? fd sd md idx st).2).2)).1
      rw [ih (idx + 1) (stitchStep rih tractor pooh? fd sd md idx st).2 i hi']

theorem stitchLoop_snd_take :
    ∀ (mds : List ℚ) (idx : ℕ) (st : StitchSt),
      (stitchLoop rih tractor pooh? fd sd mds idx st).2 =
        match mds with
        | [] => st
        | md :: rest => (stitchLoop rih tractor pooh? fd sd rest (idx + 1)
            (stitchStep rih tractor pooh? fd sd md idx st).2).2 := by
  intro mds idx st
  cases mds <;> rfl

end StitcherLemmas

section StitcherState

/-- The Phase-1 proximity hits of a run of union MDs, in order: the samples
whose values the loop records in `lastRihStandard1Value` (App.jsx 3455-3459). -/
def p1Hits (rih : List SimSample) (fd : ℚ) (mds : List ℚ) : List SimSample :=
  mds.filterMap fun md => if md < fd then findNear rih md else none

/-- The Phase-1 hits with their loop indices. -/
def p1HitsIdx (rih : List SimSample) (fd : ℚ) (mds : List ℚ) (idx : ℕ) :
    List (ℕ × SimSample) :=
  (mds.enumFrom idx).filterMap fun q =>
    if q.2 < fd then (findNear rih q.2).map fun p => (q.1, p) else none

/-- The Phase-2 hits with their loop indices (App.jsx 3462-3466). -/
def p2HitsIdx (tractor : List SimSample) (fd : ℚ) (sd : Option ℚ)
    (mds : List ℚ) (idx : ℕ) : List (ℕ × SimSample) :=
  (mds.enumFrom idx).filterMap fun q =>
    if fd ≤ q.2 ∧ ltStop q.2 sd = true then
      (findNear tractor q.2).map fun p => (q.1, p)
    else none

theorem getLast?_cons (b : α) (l : List α) :
    (b :: l).getLast? =
      match l.getLast? with
      | some x => some x
      | none => some b := by
  induction l generalizing b with
  | nil => rfl
  | cons c m ih =>
    rw [List.getLast?_cons_cons, ih c]
    cases hm : m.getLast? with
    | some x => rfl
    | none => rfl

theorem p1HitsIdx_cons_hit (rih : List SimSample) (fd md : ℚ) (rest : List ℚ)
    (idx : ℕ) (p : SimSample) (h1 : md < fd) (hf : findNear rih md = some p) :
    p1HitsIdx rih fd (md :: rest) idx = (idx, p) :: p1HitsIdx rih fd rest (idx + 1) := by
  unfold p1HitsIdx
  rw [List.enumFrom_cons, List.filterMap_cons]
  dsimp only
  rw [if_pos h1, hf]
  rfl

theorem p1HitsIdx_cons_miss (rih : List SimSample) (fd md : ℚ) (rest : List ℚ)
    (idx : ℕ) (h : (if md < fd then (findNear rih md).map (fun p => (idx, p))
      else none) = none) :
    p1HitsIdx rih fd (md :: rest) idx = p1HitsIdx rih fd rest (idx + 1) := by
  unfold p1HitsIdx
  rw [List.enumFrom_cons, List.filterMap_cons]
  dsimp only
  rw [h]

theorem p2HitsIdx_cons_hit (tractor : List SimSample) (fd : ℚ) (sd : Option ℚ)
    (md : ℚ) (rest : List ℚ) (idx : ℕ) (p : SimSample)
    (h1 : fd ≤ md ∧ ltStop md sd = true) (hf : findNear tractor md = some p) :
    p2HitsIdx tractor fd sd (md :: rest) idx =
      (idx, p) :: p2HitsIdx tractor fd sd rest (idx + 1) := by
  unfold p2HitsIdx
  rw [List.enumFrom_cons, List.filterMap_cons]
  dsimp only
  rw [if_pos h1, hf]
  rfl

theorem p2HitsIdx_cons_miss (tractor : List SimSample) (fd : ℚ) (sd : Option ℚ)
    (md : ℚ) (rest : List ℚ) (idx : ℕ)
    (h : (if fd ≤ md ∧ ltStop md sd = true then
      (findNear tractor md).map (fun p => (idx, p)) else none) = none) :
    p2HitsIdx tractor fd sd (md :: rest) idx = p2HitsIdx tractor fd sd rest (idx + 1) := by
  unfold p2HitsIdx
  rw [List.enumFrom_cons, List.filterMap_cons]
  dsimp only
  rw [h]

theorem stitchLoop_snd_s1 (rih tractor : List SimSample)
    (pooh? : Option (List SimSample)) (fd : ℚ) (sd : Option ℚ) :
    ∀ (mds : List ℚ) (idx : ℕ) (st : StitchSt),
      (((stitchLoop rih tractor pooh? fd sd mds idx st).2).s1v,
       ((stitchLoop rih tractor pooh? fd sd mds idx st).2).s1i) =
        match (p1HitsIdx rih fd mds idx).getLast? with
        | some q => (q.2.rih, some q.1)
        | none => (st.s1v, st.s1i) := by
  intro mds
  induction mds with
  | nil => intro idx st; rfl
  | cons md rest ih =>
    intro idx st
    have hloop : (stitchLoop rih tractor pooh? fd sd (md :: rest) idx st).2 =
        (stitchLoop rih tractor pooh? fd sd rest (idx + 1)
          (stitchStep rih tractor pooh? fd sd md idx st).2).2 := rfl
    rw [hloop, ih (idx + 1) (stitchStep rih tractor pooh? fd sd md idx st).2]
    have hst := stitchStep_snd rih tractor pooh? fd sd md idx st
    by_cases h1 : md < fd
    · rw [if_pos h1] at hst
      cases hf : findNear rih md with
      | none =>
        rw [hf] at hst
        rw [p1HitsIdx_cons_miss rih fd md rest idx (by rw [if_pos h1, hf]; rfl), hst]
      | some p =>
        rw [hf] at hst
        rw [p1HitsIdx_cons_hit rih fd md rest idx p h1 hf, getLast?_cons]
        cases htail : (p1HitsIdx rih fd rest (idx + 1)).getLast? with
        | some q => simp only [htail]
        | none =>
          simp only [htail]
          rw [hst]
    · rw [if_neg h1] at hst
      rw [p1HitsIdx_cons_miss rih fd md rest idx (by rw [if_neg h1])]
      cases htail : (p1HitsIdx rih fd rest (idx + 1)).getLast? with
      | some q => simp only [htail]
      | none =>
        simp only [htail]
        by_cases h2 : fd ≤ md ∧ ltStop md sd = true
        · rw [if_pos h2] at hst
          cases hf : findNear tractor md with
          | none =>
            rw [hf] at hst
            rw [hst]
          | some p =>
            rw [hf] at hst
            rw [hst]
        · rw [if_neg h2] at hst
          rw [hst]

theorem stitchLoop_snd_tr (rih tractor : List SimSample)
    (pooh? : Option (List SimSample)) (fd : ℚ) (sd : Option ℚ) :
    ∀ (mds : List ℚ) (idx : ℕ) (st : StitchSt),
      (((stitchLoop rih tractor pooh? fd sd mds idx st).2).trv,
       ((stitchLoop rih tractor pooh? fd sd mds idx st).2).tri) =
        match (p2HitsIdx tractor fd sd mds idx).getLast? with
        | some q => (q.2.rih, some q.1)
        | none => (st.trv, st.tri) := by
  intro mds
  induction mds with
  | nil => intro idx st; rfl
  | cons md rest ih =>
    intro idx st
    have hloop : (stitchLoop rih tractor pooh? fd sd (md :: rest) idx st).2 =
        (stitchLoop rih tractor pooh? fd sd rest (idx + 1)
          (stitchStep rih tractor pooh? fd sd md idx st).2).2 := rfl
    rw [hloop, ih (idx + 1) (stitchStep rih tractor pooh? fd sd md idx st).2]
    have hst := stitchStep_snd rih tractor pooh? fd sd md idx st
    by_cases h2 : fd ≤ md ∧ ltStop md sd = true
    · have h1 : ¬ md < fd := not_lt.mpr h2.1
      rw [if_neg h1, if_pos h2] at hst
      cases hf : findNear tractor md with
      | none =>
        rw [hf] at hst
        rw [p2HitsIdx_cons_miss tractor fd sd md rest idx (by rw [if_pos h2, hf]; rfl), hst]
      | some p =>
        rw [hf] at hst
        rw [p2HitsIdx_cons_hit tractor fd sd md rest idx p h2 hf, getLast?_cons]
        cases htail : (p2HitsIdx tractor fd sd rest (idx + 1)).getLast? with
        | some q => simp only [htail]
        | none =>
          simp only [htail]
          rw [hst]
    · rw [p2HitsIdx_cons_miss tractor fd sd md rest idx (by rw [if_neg h2])]
      cases htail : (p2HitsIdx tractor fd sd rest (idx + 1)).getLast? with
      | some q => simp only [htail]
      | none =>
        simp only [htail]
        by_cases h1 : md < fd
        · rw [if_pos h1] at hst
          cases hf : findNear rih md with
          | none =>
            rw [hf] at hst
            rw [hst]
          | some p =>
            rw [hf] at hst
            rw [hst]
        · rw [if_neg h1, if_neg h2] at hst
          rw [hst]

end StitcherState

section UnionAndMax

theorem foldl_max_spec :
    ∀ (l : List ℚ) (a : ℚ),
      a ≤ l.foldl max a ∧ (∀ x ∈ l, x ≤ l.foldl max a) ∧
        (l.foldl max a = a ∨ l.foldl max a ∈ l) := by
  intro l
  induction l with
  | nil =>
    intro a
    exact ⟨le_rfl, by simp, Or.inl rfl⟩
  | cons b m ih =>
    intro a
    have h := ih (max a b)
    refine ⟨le_trans (le_max_left a b) h.1, ?_, ?_⟩
    · intro x hx
      rcases List.mem_cons.mp hx with rfl | hx
      · exact le_trans (le_max_right a x) h.1
      · exact h.2.1 x hx
    · rcases h.2.2 with he | he
      · rcases max_choice a b with hm | hm
        · exact Or.inl (by rw [List.foldl_cons, he, hm])
        · exact Or.inr (by rw [List.foldl_cons, he, hm]; exact List.mem_cons_self b m)
      · exact Or.inr (List.mem_cons_of_mem b he)

theorem mdsMax_is_max (rih : List SimSample) (hne : rih ≠ []) :
    (∀ p ∈ rih, p.md ≤ mdsMax rih) ∧ ∃ p ∈ rih, p.md = mdsMax rih := by
  cases rih with
  | nil => exact absurd rfl hne
  | cons p ps =>
    have h := foldl_max_spec (ps.map SimSample.md) p.md
    constructor
    · intro q hq
      rcases List.mem_cons.mp hq with rfl | hq
      · exact h.1
      · exact h.2.1 q.md (List.mem_map_of_mem SimSample.md hq)
    · rcases h.2.2 with he | he
      · exact ⟨p, List.mem_cons_self p ps, he.symm⟩
      · rcases List.mem_map.mp he with ⟨q, hq, hqe⟩
        refine ⟨q, List.mem_cons_of_mem p hq, ?_⟩
        show q.md = (ps.map SimSample.md).foldl max p.md
        rw [hqe]

theorem unionMDs_sorted (rih tractor : List SimSample)
    (pooh? : Option (List SimSample)) :
    List.Sorted (· < ·) (unionMDs rih tractor pooh?) := by
  unfold unionMDs
  apply List.Sorted.lt_of_le
  · exact List.sorted_mergeSort' _
  · exact (List.mergeSort_perm _ _).nodup_iff.mpr (List.nodup_dedup _)

theorem unionMDs_mem (rih tractor : List SimSample)
    (pooh? : Option (List SimSample)) (q : ℚ) :
    q ∈ unionMDs rih tractor pooh? ↔
      (∃ p ∈ rih, p.md = q) ∨ (∃ p ∈ tractor, p.md = q) ∨
        (∃ l, pooh? = some l ∧ ∃ p ∈ l, p.md = q) := by
  unfold unionMDs
  rw [(List.mergeSort_perm _ _).mem_iff, List.mem_dedup, List.mem_append,
    List.mem_append]
  cases pooh? with
  | none => simp [List.mem_map, eq_comm]
  | some l =>
    simp [List.mem_map, eq_comm]
    exact or_assoc

end UnionAndMax

section MainPass

/-- The merged list produced by the main pass of `handleStitch`, before the
connector passes (App.jsx 3436-3488). -/
def mainPassOf (rih tractor : List SimSample) (pooh? : Option (List SimSample))
    (td std : ℚ) : List StitchedPoint :=
  (stitchLoop rih tractor pooh? (effForceDepth rih td)
    (effStopDepth (effForceDepth rih td) std) (unionMDs rih tractor pooh?) 0
    ⟨none, none, none, none⟩).1

/-- The tracker state at the end of the main pass. -/
def finalStateOf (rih tractor : List SimSample) (pooh? : Option (List SimSample))
    (td std : ℚ) : StitchSt :=
  (stitchLoop rih tractor pooh? (effForceDepth rih td)
    (effStopDepth (effForceDepth rih td) std) (unionMDs rih tractor pooh?) 0
    ⟨none, none, none, none⟩).2

theorem stitchRunData_eq (rih tractor : List SimSample)
    (pooh? : Option (List SimSample)) (td std : ℚ) :
    stitchRunData rih tractor pooh? td std =
      applyConnectors (effStopDepth (effForceDepth rih td) std)
        (mainPassOf rih tractor pooh? td std)
        (finalStateOf rih tractor pooh? td std) := rfl

theorem mainPassOf_length (rih tractor : List SimSample)
    (pooh? : Option (List SimSample)) (td std : ℚ) :
    (mainPassOf rih tractor pooh? td std).length =
      (unionMDs rih tractor pooh?).length :=
  stitchLoop_length rih tractor pooh? _ _ _ 0 _

theorem mainPassOf_getD (rih tractor : List SimSample)
    (pooh? : Option (List SimSample)) (td std : ℚ) (i : ℕ)
    (hi : i < (unionMDs rih tractor pooh?).length) :
    (mainPassOf rih tractor pooh? td std).getD i default =
      (stitchStep rih tractor pooh? (effForceDepth rih td)
        (effStopDepth (effForceDepth rih td) std)
        ((unionMDs rih tractor pooh?).getD i 0) i
        ((stitchLoop rih tractor pooh? (effForceDepth rih td)
          (effStopDepth (effForceDepth rih td) std)
          ((unionMDs rih tractor pooh?).take i) 0 ⟨none, none, none, none⟩).2)).1 := by
  have h := stitchLoop_getD rih tractor pooh? (effForceDepth rih td)
    (effStopDepth (effForceDepth rih td) std) (unionMDs rih tractor pooh?) 0
    ⟨none, none, none, none⟩ i hi
  simpa using h

end MainPass

section HitsLemmas

theorem p1Hits_cons_hit (rih : List SimSample) (fd md : ℚ) (rest : List ℚ)
    (p : SimSample) (h1 : md < fd) (hf : findNear rih md = some p) :
    p1Hits rih fd (md :: rest) = p :: p1Hits rih fd rest := by
  unfold p1Hits
  rw [List.filterMap_cons]
  rw [if_pos h1, hf]

theorem p1Hits_cons_miss (rih : List SimSample) (fd md : ℚ) (rest : List ℚ)
    (h : (if md < fd then findNear rih md else none) = none) :
    p1Hits rih fd (md :: rest) = p1Hits rih fd rest := by
  unfold p1Hits
  rw [List.filterMap_cons]
  rw [h]

theorem p1HitsIdx_map_snd (rih : List SimSample) (fd : ℚ) :
    ∀ (mds : List ℚ) (idx : ℕ),
      (p1HitsIdx rih fd mds idx).map Prod.snd = p1Hits rih fd mds := by
  intro mds
  induction mds with
  | nil => intro idx; rfl
  | cons md rest ih =>
    intro idx
    by_cases h1 : md < fd
    · cases hf : findNear rih md with
      | none =>
        rw [p1HitsIdx_cons_miss rih fd md rest idx (by rw [if_pos h1, hf]; rfl),
          p1Hits_cons_miss rih fd md rest (by rw [if_pos h1, hf]), ih (idx + 1)]
      | some p =>
        rw [p1HitsIdx_cons_hit rih fd md rest idx p h1 hf,
          p1Hits_cons_hit rih fd md rest p h1 hf, List.map_cons, ih (idx + 1)]
    · rw [p1HitsIdx_cons_miss rih fd md rest idx (by rw [if_neg h1]),
        p1Hits_cons_miss rih fd md rest (by rw [if_neg h1]), ih (idx + 1)]

theorem p1HitsIdx_getLast?_spec (rih : List SimSample) (fd : ℚ) (mds : List ℚ)
    (i : ℕ) (p : SimSample)
    (h : (p1HitsIdx rih fd mds 0).getLast? = some (i, p)) :
    i < mds.length ∧ mds.getD i 0 < fd ∧ findNear rih (mds.getD i 0) = some p := by
  have hmem : (i, p) ∈ p1HitsIdx rih fd mds 0 := List.mem_of_mem_getLast? h
  rcases List.mem_filterMap.mp hmem with ⟨a, ha, hfa⟩
  obtain ⟨ia, mda⟩ := a
  by_cases hc : mda < fd
  · rw [if_pos hc] at hfa
    rcases Option.map_eq_some'.mp hfa with ⟨b, hb, hbe⟩
    have hia : ia = i := congrArg Prod.fst hbe
    have hbp : b = p := congrArg Prod.snd hbe
    rw [← hia, ← hbp]
    have hen := (List.mk_mem_enumFrom_iff_le_and_getElem?_sub.mp ha).2
    rw [Nat.sub_zero] at hen
    have hlen : ia < mds.length := by
      by_contra hcon
      rw [List.getElem?_eq_none (by omega)] at hen
      exact absurd hen (by simp)
    have hmd : mds.getD ia 0 = mda := by
      rw [List.getD_eq_getElem?_getD, hen]
      rfl
    rw [hmd]
    exact ⟨hlen, hc, hb⟩
  · rw [if_neg hc] at hfa
    exact absurd hfa (by simp)

theorem p2HitsIdx_getLast?_spec (tractor : List SimSample) (fd : ℚ)
    (sd : Option ℚ) (mds : List ℚ) (j : ℕ) (q : SimSample)
    (h : (p2HitsIdx tractor fd sd mds 0).getLast? = some (j, q)) :
    j < mds.length ∧ fd ≤ mds.getD j 0 ∧ ltStop (mds.getD j 0) sd = true ∧
      findNear tractor (mds.getD j 0) = some q := by
  have hmem : (j, q) ∈ p2HitsIdx tractor fd sd mds 0 := List.mem_of_mem_getLast? h
  rcases List.mem_filterMap.mp hmem with ⟨a, ha, hfa⟩
  obtain ⟨ia, mda⟩ := a
  by_cases hc : fd ≤ mda ∧ ltStop mda sd = true
  · rw [if_pos hc] at hfa
    rcases Option.map_eq_some'.mp hfa with ⟨b, hb, hbe⟩
    have hia : ia = j := congrArg Prod.fst hbe
    have hbp : b = q := congrArg Prod.snd hbe
    rw [← hia, ← hbp]
    have hen := (List.mk_mem_enumFrom_iff_le_and_getElem?_sub.mp ha).2
    rw [Nat.sub_zero] at hen
    have hlen : ia < mds.length := by
      by_contra hcon
      rw [List.getElem?_eq_none (by omega)] at hen
      exact absurd hen (by simp)
    have hmd : mds.getD ia 0 = mda := by
      rw [List.getD_eq_getElem?_getD, hen]
      rfl
    rw [hmd]
    exact ⟨hlen, hc.1, hc.2, hb⟩
  · rw [if_neg hc] at hfa
    exact absurd hfa (by simp)

end HitsLemmas

/-- **C1.** For every stitch with a non-empty `rih` series and a tractor
series: the effective force depth is the given `tractorDepth` when non-zero,
else the maximum MD of `rih`; the effective stop depth is the given
`stopTractorDepth` when strictly above the force depth, else infinity
(`none`); the main pass walks the sorted deduplicated union of the input
files' MDs and maps each MD to exactly one RIH field by depth: strictly below
the force depth only `rih_standard_1` (the proximity-matched rih sample's
value, else null), in `[forceDepth, stopDepth)` only `rih_tractor` (the
proximity-matched tractor sample's value, else null), and at or above the
stop depth only `rih_standard_2`. -/
theorem C1_stitch_phases (rih tractor : List SimSample)
    (pooh? : Option (List SimSample)) (td std : ℚ) (hne : rih ≠ []) :
    (td ≠ 0 → effForceDepth rih td = td) ∧
    (td = 0 → (∀ p ∈ rih, p.md ≤ effForceDepth rih td) ∧
      ∃ p ∈ rih, p.md = effForceDepth rih td) ∧
    (effForceDepth rih td < std →
      effStopDepth (effForceDepth rih td) std = some std) ∧
    (¬ effForceDepth rih td < std →
      effStopDepth (effForceDepth rih td) std = none) ∧
    List.Sorted (· < ·) (unionMDs rih tractor pooh?) ∧
    (∀ q, q ∈ unionMDs rih tractor pooh? ↔
      (∃ p ∈ rih, p.md = q) ∨ (∃ p ∈ tractor, p.md = q) ∨
        ∃ l, pooh? = some l ∧ ∃ p ∈ l, p.md = q) ∧
    (mainPassOf rih tractor pooh? td std).length =
      (unionMDs rih tractor pooh?).length ∧
    ∀ i, i < (unionMDs rih tractor pooh?).length →
      ∀ md, md = (unionMDs rih tractor pooh?).getD i 0 →
      ∀ pt, pt = (mainPassOf rih tractor pooh? td std).getD i default →
        pt.md = md ∧
        (md < effForceDepth rih td →
          pt.rih_standard_1 = (findNear rih md).bind SimSample.rih ∧
          pt.rih_tractor = none ∧ pt.rih_standard_2 = none ∧
          pt.pooh = poohOf tractor pooh? md) ∧
        (effForceDepth rih td ≤ md →
          ltStop md (effStopDepth (effForceDepth rih td) std) = true →
          pt.rih_tractor = (findNear tractor md).bind SimSample.rih ∧
          pt.rih_standard_1 = none ∧ pt.rih_standard_2 = none ∧
          pt.pooh = poohOf tractor pooh? md) ∧
        (effForceDepth rih td ≤ md →
          ltStop md (effStopDepth (effForceDepth rih td) std) = false →
          pt.rih_standard_1 = none ∧ pt.rih_tractor = none) := by
  refine ⟨?_, ?_, ?_, ?_, unionMDs_sorted rih tractor pooh?,
    unionMDs_mem rih tractor pooh?, mainPassOf_length rih tractor pooh? td std, ?_⟩
  · intro h
    unfold effForceDepth
    rw [if_pos h]
  · intro h
    have : effForceDepth rih td = mdsMax rih := by
      unfold effForceDepth
      rw [if_neg (by rw [h]; simp)]
    rw [this]
    exact mdsMax_is_max rih hne
  · intro h
    unfold effStopDepth
    rw [if_pos h]
  · intro h
    unfold effStopDepth
    rw [if_neg h]
  · intro i hi md hmd pt hpt
    subst hmd
    subst hpt
    rw [mainPassOf_getD rih tractor pooh? td std i hi]
    refine ⟨stitchStep_fst_md _ _ _ _ _ _ _ _, ?_, ?_, ?_⟩
    · intro h1
      rw [stitchStep_fst_p1 rih tractor pooh? _ _ _ _ _ h1]
      exact ⟨rfl, rfl, rfl, rfl⟩
    · intro hfd hstop
      rw [stitchStep_fst_p2 rih tractor pooh? _ _ _ _ _ (not_lt.mpr hfd) ⟨hfd, hstop⟩]
      exact ⟨rfl, rfl, rfl, rfl⟩
    · intro hfd hstop
      rw [stitchStep_fst_p3 rih tractor pooh? _ _ _ _ _ (not_lt.mpr hfd)
        (by rw [hstop]; simp)]
      exact ⟨rfl, rfl⟩

/-- **C2.** In the main pass, a union MD at or above the stop depth (Phase 3)
with no `rih` proximity match gets `rih_standard_2` equal to the rih value of
the last Phase-1 proximity hit before it (a flat forward extension); when no
Phase-1 hit was recorded (or the last recorded hit carried a null rih), the
field stays null. -/
theorem C2_phase3_fallback (rih tractor : List SimSample)
    (pooh? : Option (List SimSample)) (td std : ℚ) (i : ℕ)
    (hi : i < (unionMDs rih tractor pooh?).length)
    (hstop : ltStop ((unionMDs rih tractor pooh?).getD i 0)
      (effStopDepth (effForceDepth rih td) std) = false)
    (hmiss : findNear rih ((unionMDs rih tractor pooh?).getD i 0) = none) :
    ((mainPassOf rih tractor pooh? td std).getD i default).rih_standard_2 =
      ((p1Hits rih (effForceDepth rih td)
        ((unionMDs rih tractor pooh?).take i)).getLast?).bind SimSample.rih := by
  rw [mainPassOf_getD rih tractor pooh? td std i hi]
  have h1 : ¬ (unionMDs rih tractor pooh?).getD i 0 < effForceDepth rih td := by
    unfold effStopDepth at hstop
    by_cases hc : effForceDepth rih td < std
    · rw [if_pos hc] at hstop
      unfold ltStop at hstop
      have : ¬ (unionMDs rih tractor pooh?).getD i 0 < std := by
        simpa using hstop
      intro hcon
      exact this (lt_trans hcon hc)
    · rw [if_neg hc] at hstop
      exact absurd hstop (by simp [ltStop])
  have h2 : ¬ (effForceDepth rih td ≤ (unionMDs rih tractor pooh?).getD i 0 ∧
      ltStop ((unionMDs rih tractor pooh?).getD i 0)
        (effStopDepth (effForceDepth rih td) std) = true) := by
    rw [hstop]
    simp
  rw [stitchStep_fst_p3_miss rih tractor pooh? _ _ _ _ _ h1 h2 hmiss]
  dsimp only
  have hs1 := stitchLoop_snd_s1 rih tractor pooh? (effForceDepth rih td)
    (effStopDepth (effForceDepth rih td) std) ((unionMDs rih tractor pooh?).take i) 0
    ⟨none, none, none, none⟩
  have hv := congrArg Prod.fst hs1
  dsimp only at hv
  rw [hv]
  have hmap := p1HitsIdx_map_snd rih (effForceDepth rih td)
    ((unionMDs rih tractor pooh?).take i) 0
  have hlast : (p1Hits rih (effForceDepth rih td)
      ((unionMDs rih tractor pooh?).take i)).getLast? =
      ((p1HitsIdx rih (effForceDepth rih td)
        ((unionMDs rih tractor pooh?).take i) 0).getLast?).map Prod.snd := by
    rw [← hmap, List.getLast?_map]
  rw [hlast]
  cases (p1HitsIdx rih (effForceDepth rih td)
      ((unionMDs rih tractor pooh?).take i) 0).getLast? with
  | none => rfl
  | some qq => rfl

section ConnectorLemmas

theorem get?_eq_some_getD {α : Type} (l : List α) (d : α) (i : ℕ)
    (h : i < l.length) : l.get? i = some (l.getD i d) := by
  rw [List.get?_eq_getElem?, List.getElem?_eq_getElem h, List.getD_eq_getElem?_getD,
    List.getElem?_eq_getElem h]
  rfl

theorem get?_eq_none_oob {α : Type} (l : List α) (i : ℕ) (h : ¬ i < l.length) :
    l.get? i = none := by
  rw [List.get?_eq_getElem?, List.getElem?_eq_none (by omega)]

theorem getD_set_ne {α : Type} (l : List α) (d a : α) (i j : ℕ) (h : i ≠ j) :
    (l.set i a).getD j d = l.getD j d := by
  rw [List.getD_eq_getElem?_getD, List.getElem?_set_ne h, ← List.getD_eq_getElem?_getD]

theorem getD_set_self {α : Type} (l : List α) (d a : α) (i : ℕ)
    (h : i < l.length) : (l.set i a).getD i d = a := by
  rw [List.getD_eq_getElem?_getD, List.getElem?_set_self h]
  rfl

theorem getD_oob {α : Type} (l : List α) (d : α) (i : ℕ) (h : ¬ i < l.length) :
    l.getD i d = d := by
  rw [List.getD_eq_getElem?_getD, List.getElem?_eq_none (by omega)]
  rfl

theorem conn1_of_none (sd : Option ℚ) (merged : List StitchedPoint)
    (st : StitchSt) (h : st.s1i = none) : conn1 sd merged st = merged := by
  unfold conn1
  rw [h]

theorem conn1_of_hit (sd : Option ℚ) (merged : List StitchedPoint)
    (st : StitchSt) (i : ℕ) (pt : StitchedPoint) (hidx : st.s1i = some i)
    (hget : merged.get? i = some pt)
    (hcond : ltStop pt.md sd = true ∧ pt.rih_tractor = none) :
    conn1 sd merged st = merged.set i { pt with rih_tractor := st.s1v } := by
  unfold conn1
  rw [hidx]
  simp only [hget]
  rw [if_pos hcond]

theorem conn2_of_bad_idx (merged : List StitchedPoint) (st : StitchSt) (j : ℕ)
    (hidx : st.tri = some j) (hget : merged.get? j = none) :
    conn2 merged st = merged := by
  unfold conn2
  rw [hidx]
  simp only [hget]

theorem conn2_of_none (merged : List StitchedPoint) (st : StitchSt)
    (h : st.tri = none) : conn2 merged st = merged := by
  unfold conn2
  rw [h]

theorem conn2_of_hit (merged : List StitchedPoint) (st : StitchSt) (j : ℕ)
    (pt nxt : StitchedPoint) (hidx : st.tri = some j)
    (hget : merged.get? j = some pt) (hnext : merged.get? (j + 1) = some nxt)
    (hcond : (nxt.rih_standard_2 ≠ none ∨ pt.rih_standard_2 ≠ none) ∧
      pt.rih_standard_2 = none) :
    conn2 merged st = merged.set j { pt with rih_standard_2 := st.trv } := by
  unfold conn2
  rw [hidx]
  simp only [hget, hnext]
  rw [if_pos hcond]

theorem conn2_of_miss (merged : List StitchedPoint) (st : StitchSt) (j : ℕ)
    (pt nxt : StitchedPoint) (hidx : st.tri = some j)
    (hget : merged.get? j = some pt) (hnext : merged.get? (j + 1) = some nxt)
    (hcond : ¬ ((nxt.rih_standard_2 ≠ none ∨ pt.rih_standard_2 ≠ none) ∧
      pt.rih_standard_2 = none)) :
    conn2 merged st = merged := by
  unfold conn2
  rw [hidx]
  simp only [hget, hnext]
  rw [if_neg hcond]

theorem conn2_of_no_next (merged : List StitchedPoint) (st : StitchSt) (j : ℕ)
    (pt : StitchedPoint) (hidx : st.tri = some j)
    (hget : merged.get? j = some pt) (hnext : merged.get? (j + 1) = none) :
    conn2 merged st = merged := by
  unfold conn2
  rw [hidx]
  simp only [hget, hnext]

theorem conn2_getD_of_ne (merged : List StitchedPoint) (st : StitchSt) (i : ℕ)
    (h : ∀ j, st.tri = some j → j ≠ i) :
    (conn2 merged st).getD i default = merged.getD i default := by
  cases htri : st.tri with
  | none => rw [conn2_of_none merged st htri]
  | some j =>
    cases hg : merged.get? j with
    | none => rw [conn2_of_bad_idx merged st j htri hg]
    | some pt =>
      cases hg2 : merged.get? (j + 1) with
      | none => rw [conn2_of_no_next merged st j pt htri hg hg2]
      | some nxt =>
        by_cases hc : (nxt.rih_standard_2 ≠ none ∨ pt.rih_standard_2 ≠ none) ∧
            pt.rih_standard_2 = none
        · rw [conn2_of_hit merged st j pt nxt htri hg hg2 hc]
          exact getD_set_ne merged default _ j i (h j htri)
        · rw [conn2_of_miss merged st j pt nxt htri hg hg2 hc]

end ConnectorLemmas

/-- **C3 (amended).** After the main pass of the stitcher: (1) when a
Phase-1→Phase-2 transition occurred (there is a last Phase-1 proximity hit and
a last Phase-2 proximity hit), connector 1 writes the last Phase-1 value into
the last Phase-1 point's `rih_tractor`; (2) the last Phase-2 point's
`rih_standard_2` is set to the last Phase-2 value exactly when the
*immediately following* output point exists and carries a non-null
`rih_standard_2`.  The original claim's condition — a `rih_standard_2` reading
existing *somewhere after* the point — is wrong: the source only inspects
`merged[lastRihTractorIndex + 1]` (see the counterexample). -/
theorem C3_connectors (rih tractor : List SimSample)
    (pooh? : Option (List SimSample)) (td std : ℚ) :
    (∀ i p j q,
      (p1HitsIdx rih (effForceDepth rih td) (unionMDs rih tractor pooh?) 0).getLast? = some (i, p) →
      (p2HitsIdx tractor (effForceDepth rih td) (effStopDepth (effForceDepth rih td) std) (unionMDs rih tractor pooh?) 0).getLast? = some (j, q) →
      ((stitchRunData rih tractor pooh? td std).getD i default).rih_tractor =
        p.rih) ∧
    (∀ j q,
      (p2HitsIdx tractor (effForceDepth rih td) (effStopDepth (effForceDepth rih td) std) (unionMDs rih tractor pooh?) 0).getLast? = some (j, q) →
      ((stitchRunData rih tractor pooh? td std).getD j default).rih_standard_2 =
        (if ((mainPassOf rih tractor pooh? td std).getD (j + 1) default).rih_standard_2 ≠ none
         then q.rih else none)) := by
  have hlen : (mainPassOf rih tractor pooh? td std).length = (unionMDs rih tractor pooh?).length :=
    mainPassOf_length rih tractor pooh? td std
  have hsorted := unionMDs_sorted rih tractor pooh?
  constructor
  · intro i p j q hp1 hp2
    obtain ⟨hi, hmdi, hfi⟩ := p1HitsIdx_getLast?_spec rih (effForceDepth rih td) (unionMDs rih tractor pooh?) i p hp1
    obtain ⟨hj, hfdj, hstopj, hfj⟩ :=
      p2HitsIdx_getLast?_spec tractor (effForceDepth rih td) (effStopDepth (effForceDepth rih td) std) (unionMDs rih tractor pooh?) j q hp2
    have hs1pair : ((finalStateOf rih tractor pooh? td std).s1v, (finalStateOf rih tractor pooh? td std).s1i) =
        (match (p1HitsIdx rih (effForceDepth rih td) (unionMDs rih tractor pooh?) 0).getLast? with
         | some qq => (qq.2.rih, some qq.1)
         | none => (none, none)) :=
      stitchLoop_snd_s1 rih tractor pooh? (effForceDepth rih td) (effStopDepth (effForceDepth rih td) std) (unionMDs rih tractor pooh?) 0
        ⟨none, none, none, none⟩
    rw [hp1] at hs1pair
    have hs1v : (finalStateOf rih tractor pooh? td std).s1v = p.rih := by
      have hx := congrArg Prod.fst hs1pair
      simpa using hx
    have hs1i : (finalStateOf rih tractor pooh? td std).s1i = some i := by
      have hx := congrArg Prod.snd hs1pair
      simpa using hx
    have htrpair : ((finalStateOf rih tractor pooh? td std).trv, (finalStateOf rih tractor pooh? td std).tri) =
        (match (p2HitsIdx tractor (effForceDepth rih td) (effStopDepth (effForceDepth rih td) std) (unionMDs rih tractor pooh?) 0).getLast? with
         | some qq => (qq.2.rih, some qq.1)
         | none => (none, none)) :=
      stitchLoop_snd_tr rih tractor pooh? (effForceDepth rih td) (effStopDepth (effForceDepth rih td) std) (unionMDs rih tractor pooh?) 0
        ⟨none, none, none, none⟩
    rw [hp2] at htrpair
    have htri : (finalStateOf rih tractor pooh? td std).tri = some j := by
      have hx := congrArg Prod.snd htrpair
      simpa using hx
    have hpt_i : (mainPassOf rih tractor pooh? td std).getD i default =
        ⟨(unionMDs rih tractor pooh?).getD i 0,
         (findNear rih ((unionMDs rih tractor pooh?).getD i 0)).bind SimSample.rih, none, none,
         poohOf tractor pooh? ((unionMDs rih tractor pooh?).getD i 0)⟩ := by
      rw [mainPassOf_getD rih tractor pooh? td std i hi]
      exact stitchStep_fst_p1 rih tractor pooh? (effForceDepth rih td) (effStopDepth (effForceDepth rih td) std) _ _ _ hmdi
    have hij : i ≠ j := by
      intro he
      rw [he] at hmdi
      exact absurd (lt_of_lt_of_le hmdi hfdj) (lt_irrefl _)
    have hget_i : (mainPassOf rih tractor pooh? td std).get? i = some ((mainPassOf rih tractor pooh? td std).getD i default) :=
      get?_eq_some_getD _ default i (by rw [hlen]; exact hi)
    have hcond1 : ltStop (((mainPassOf rih tractor pooh? td std).getD i default).md) (effStopDepth (effForceDepth rih td) std) = true ∧
        ((mainPassOf rih tractor pooh? td std).getD i default).rih_tractor = none := by
      rw [hpt_i]
      refine ⟨?_, rfl⟩
      show ltStop ((unionMDs rih tractor pooh?).getD i 0) (effStopDepth (effForceDepth rih td) std) = true
      unfold effStopDepth
      by_cases hc : (effForceDepth rih td) < std
      · rw [if_pos hc]
        simp only [ltStop, decide_eq_true_eq]
        exact lt_trans hmdi hc
      · rw [if_neg hc]
        rfl
    have hm1 : conn1 (effStopDepth (effForceDepth rih td) std) (mainPassOf rih tractor pooh? td std) (finalStateOf rih tractor pooh? td std) =
        (mainPassOf rih tractor pooh? td std).set i
          { (mainPassOf rih tractor pooh? td std).getD i default with rih_tractor := (finalStateOf rih tractor pooh? td std).s1v } :=
      conn1_of_hit (effStopDepth (effForceDepth rih td) std) (mainPassOf rih tractor pooh? td std) (finalStateOf rih tractor pooh? td std) i _ hs1i hget_i hcond1
    rw [stitchRunData_eq]
    show ((conn2 (conn1 (effStopDepth (effForceDepth rih td) std) (mainPassOf rih tractor pooh? td std) (finalStateOf rih tractor pooh? td std)) (finalStateOf rih tractor pooh? td std)).getD i default).rih_tractor =
      p.rih
    rw [conn2_getD_of_ne _ _ i ?hne]
    case hne =>
      intro j2 hj2
      rw [htri] at hj2
      have hx : j2 = j := (Option.some_inj.mp hj2).symm
      rw [hx]
      exact fun he => hij he.symm
    rw [hm1, getD_set_self _ default _ i (by rw [hlen]; exact hi)]
    exact hs1v
  · intro j q hp2
    obtain ⟨hj, hfdj, hstopj, hfj⟩ :=
      p2HitsIdx_getLast?_spec tractor (effForceDepth rih td) (effStopDepth (effForceDepth rih td) std) (unionMDs rih tractor pooh?) j q hp2
    have htrpair : ((finalStateOf rih tractor pooh? td std).trv, (finalStateOf rih tractor pooh? td std).tri) =
        (match (p2HitsIdx tractor (effForceDepth rih td) (effStopDepth (effForceDepth rih td) std) (unionMDs rih tractor pooh?) 0).getLast? with
         | some qq => (qq.2.rih, some qq.1)
         | none => (none, none)) :=
      stitchLoop_snd_tr rih tractor pooh? (effForceDepth rih td) (effStopDepth (effForceDepth rih td) std) (unionMDs rih tractor pooh?) 0
        ⟨none, none, none, none⟩
    rw [hp2] at htrpair
    have htrv : (finalStateOf rih tractor pooh? td std).trv = q.rih := by
      have hx := congrArg Prod.fst htrpair
      simpa using hx
    have htri : (finalStateOf rih tractor pooh? td std).tri = some j := by
      have hx := congrArg Prod.snd htrpair
      simpa using hx
    have hpt_j : (mainPassOf rih tractor pooh? td std).getD j default =
        ⟨(unionMDs rih tractor pooh?).getD j 0, none, none,
         (findNear tractor ((unionMDs rih tractor pooh?).getD j 0)).bind SimSample.rih,
         poohOf tractor pooh? ((unionMDs rih tractor pooh?).getD j 0)⟩ := by
      rw [mainPassOf_getD rih tractor pooh? td std j hj]
      exact stitchStep_fst_p2 rih tractor pooh? (effForceDepth rih td) (effStopDepth (effForceDepth rih td) std) _ _ _
        (not_lt.mpr hfdj) ⟨hfdj, hstopj⟩
    have hjm : j < (mainPassOf rih tractor pooh? td std).length := by rw [hlen]; exact hj
    -- connector 1 leaves indices j and j+1 unchanged
    have hs1pair : ((finalStateOf rih tractor pooh? td std).s1v, (finalStateOf rih tractor pooh? td std).s1i) =
        (match (p1HitsIdx rih (effForceDepth rih td) (unionMDs rih tractor pooh?) 0).getLast? with
         | some qq => (qq.2.rih, some qq.1)
         | none => (none, none)) :=
      stitchLoop_snd_s1 rih tractor pooh? (effForceDepth rih td) (effStopDepth (effForceDepth rih td) std) (unionMDs rih tractor pooh?) 0
        ⟨none, none, none, none⟩
    have hM : (conn1 (effStopDepth (effForceDepth rih td) std) (mainPassOf rih tractor pooh? td std) (finalStateOf rih tractor pooh? td std)).getD j default = (mainPassOf rih tractor pooh? td std).getD j default ∧
        (conn1 (effStopDepth (effForceDepth rih td) std) (mainPassOf rih tractor pooh? td std) (finalStateOf rih tractor pooh? td std)).getD (j + 1) default =
          (mainPassOf rih tractor pooh? td std).getD (j + 1) default ∧
        (conn1 (effStopDepth (effForceDepth rih td) std) (mainPassOf rih tractor pooh? td std) (finalStateOf rih tractor pooh? td std)).length = (mainPassOf rih tractor pooh? td std).length := by
      cases hp1last : (p1HitsIdx rih (effForceDepth rih td) (unionMDs rih tractor pooh?) 0).getLast? with
      | none =>
        have hs1i : (finalStateOf rih tractor pooh? td std).s1i = none := by
          rw [hp1last] at hs1pair
          have hx := congrArg Prod.snd hs1pair
          simpa using hx
        rw [conn1_of_none (effStopDepth (effForceDepth rih td) std) (mainPassOf rih tractor pooh? td std) (finalStateOf rih tractor pooh? td std) hs1i]
        exact ⟨rfl, rfl, rfl⟩
      | some ip =>
        obtain ⟨i, p⟩ := ip
        obtain ⟨hi, hmdi, hfi⟩ :=
          p1HitsIdx_getLast?_spec rih (effForceDepth rih td) (unionMDs rih tractor pooh?) i p hp1last
        rw [hp1last] at hs1pair
        have hs1i : (finalStateOf rih tractor pooh? td std).s1i = some i := by
          have hx := congrArg Prod.snd hs1pair
          simpa using hx
        have hpt_i : (mainPassOf rih tractor pooh? td std).getD i default =
            ⟨(unionMDs rih tractor pooh?).getD i 0,
             (findNear rih ((unionMDs rih tractor pooh?).getD i 0)).bind SimSample.rih, none, none,
             poohOf tractor pooh? ((unionMDs rih tractor pooh?).getD i 0)⟩ := by
          rw [mainPassOf_getD rih tractor pooh? td std i hi]
          exact stitchStep_fst_p1 rih tractor pooh? (effForceDepth rih td) (effStopDepth (effForceDepth rih td) std) _ _ _ hmdi
        have hij : i ≠ j := by
          intro he
          rw [he] at hmdi
          exact absurd (lt_of_lt_of_le hmdi hfdj) (lt_irrefl _)
        have hij1 : i ≠ j + 1 := by
          intro he
          have hjlt : j < i := by omega
          have hlt := getD_lt_getD_of_sorted hsorted hjlt hi
          have : (effForceDepth rih td) ≤ (unionMDs rih tractor pooh?).getD i 0 := le_trans hfdj (le_of_lt hlt)
          exact absurd hmdi (not_lt.mpr this)
        have hget_i : (mainPassOf rih tractor pooh? td std).get? i = some ((mainPassOf rih tractor pooh? td std).getD i default) :=
          get?_eq_some_getD _ default i (by rw [hlen]; exact hi)
        have hcond1 : ltStop (((mainPassOf rih tractor pooh? td std).getD i default).md) (effStopDepth (effForceDepth rih td) std) = true ∧
            ((mainPassOf rih tractor pooh? td std).getD i default).rih_tractor = none := by
          rw [hpt_i]
          refine ⟨?_, rfl⟩
          show ltStop ((unionMDs rih tractor pooh?).getD i 0) (effStopDepth (effForceDepth rih td) std) = true
          unfold effStopDepth
          by_cases hc : (effForceDepth rih td) < std
          · rw [if_pos hc]
            simp only [ltStop, decide_eq_true_eq]
            exact lt_trans hmdi hc
          · rw [if_neg hc]
            rfl
        rw [conn1_of_hit (effStopDepth (effForceDepth rih td) std) (mainPassOf rih tractor pooh? td std) (finalStateOf rih tractor pooh? td std) i _ hs1i hget_i hcond1]
        refine ⟨getD_set_ne _ default _ i j hij,
          getD_set_ne _ default _ i (j + 1) hij1, List.length_set _ _ _⟩
    obtain ⟨hMj, hMj1, hMlen⟩ := hM
    rw [stitchRunData_eq]
    show ((conn2 (conn1 (effStopDepth (effForceDepth rih td) std) (mainPassOf rih tractor pooh? td std) (finalStateOf rih tractor pooh? td std)) (finalStateOf rih tractor pooh? td std)).getD j default).rih_standard_2 =
      (if ((mainPassOf rih tractor pooh? td std).getD (j + 1) default).rih_standard_2 ≠ none then q.rih else none)
    have hget_j : (conn1 (effStopDepth (effForceDepth rih td) std) (mainPassOf rih tractor pooh? td std) (finalStateOf rih tractor pooh? td std)).get? j =
        some ((conn1 (effStopDepth (effForceDepth rih td) std) (mainPassOf rih tractor pooh? td std) (finalStateOf rih tractor pooh? td std)).getD j default) :=
      get?_eq_some_getD _ default j (by rw [hMlen]; exact hjm)
    by_cases hjl : j + 1 < (mainPassOf rih tractor pooh? td std).length
    · have hget_j1 : (conn1 (effStopDepth (effForceDepth rih td) std) (mainPassOf rih tractor pooh? td std) (finalStateOf rih tractor pooh? td std)).get? (j + 1) =
          some ((conn1 (effStopDepth (effForceDepth rih td) std) (mainPassOf rih tractor pooh? td std) (finalStateOf rih tractor pooh? td std)).getD (j + 1) default) :=
        get?_eq_some_getD _ default (j + 1) (by rw [hMlen]; exact hjl)
      by_cases hcnd : ((mainPassOf rih tractor pooh? td std).getD (j + 1) default).rih_standard_2 ≠ none
      · have hcond2 : (((conn1 (effStopDepth (effForceDepth rih td) std) (mainPassOf rih tractor pooh? td std) (finalStateOf rih tractor pooh? td std)).getD (j + 1) default).rih_standard_2 ≠
            none ∨ ((conn1 (effStopDepth (effForceDepth rih td) std) (mainPassOf rih tractor pooh? td std) (finalStateOf rih tractor pooh? td std)).getD j default).rih_standard_2 ≠ none) ∧
            ((conn1 (effStopDepth (effForceDepth rih td) std) (mainPassOf rih tractor pooh? td std) (finalStateOf rih tractor pooh? td std)).getD j default).rih_standard_2 = none := by
          rw [hMj, hMj1, hpt_j]
          exact ⟨Or.inl hcnd, rfl⟩
        rw [conn2_of_hit _ (finalStateOf rih tractor pooh? td std) j _ _ htri hget_j hget_j1 hcond2]
        rw [getD_set_self _ default _ j (by rw [hMlen]; exact hjm)]
        rw [if_pos hcnd]
        exact htrv
      · have hcond2 : ¬ ((((conn1 (effStopDepth (effForceDepth rih td) std) (mainPassOf rih tractor pooh? td std) (finalStateOf rih tractor pooh? td std)).getD (j + 1) default).rih_standard_2 ≠
            none ∨ ((conn1 (effStopDepth (effForceDepth rih td) std) (mainPassOf rih tractor pooh? td std) (finalStateOf rih tractor pooh? td std)).getD j default).rih_standard_2 ≠ none) ∧
            ((conn1 (effStopDepth (effForceDepth rih td) std) (mainPassOf rih tractor pooh? td std) (finalStateOf rih tractor pooh? td std)).getD j default).rih_standard_2 = none) := by
          rw [hMj, hMj1, hpt_j]
          push_neg at hcnd
          intro hcon
          rcases hcon.1 with hx | hx
          · exact hx hcnd
          · exact hx rfl
        rw [conn2_of_miss _ (finalStateOf rih tractor pooh? td std) j _ _ htri hget_j hget_j1 hcond2]
        rw [hMj, hpt_j, if_neg hcnd]
    · have hget_j1 : (conn1 (effStopDepth (effForceDepth rih td) std) (mainPassOf rih tractor pooh? td std) (finalStateOf rih tractor pooh? td std)).get? (j + 1) = none :=
        get?_eq_none_oob _ (j + 1) (by rw [hMlen]; exact hjl)
      rw [conn2_of_no_next _ (finalStateOf rih tractor pooh? td std) j _ htri hget_j hget_j1]
      have hoob : ((mainPassOf rih tractor pooh? td std).getD (j + 1) default).rih_standard_2 = none := by
        rw [getD_oob _ default (j + 1) hjl]
        rfl
      rw [hMj, hpt_j, if_neg (by rw [hoob]; simp)]

theorem stitchedPoint_eq_mk (pt : StitchedPoint) (a : ℚ) (b c d e : Option ℚ)
    (h1 : pt.md = a) (h2 : pt.rih_standard_1 = b) (h3 : pt.rih_standard_2 = c)
    (h4 : pt.rih_tractor = d) (h5 : pt.pooh = e) : pt = ⟨a, b, c, d, e⟩ := by
  cases pt
  simp_all

/-- Counterexample for C3 as stated: `rih = [{md 30, rih 7}]`,
`tractor = [{md 15, rih 3}, {md 25, rih 9}]`, `forceDepth 10`, `stopDepth 20`.
The last Phase-2 point is `md 15` (index 0); a Phase-3 segment follows
(`md 25` and `md 30` are at or above the stop depth) and a `rih_standard_2`
reading (`7` at index 2) exists after it, yet the point's `rih_standard_2`
stays `null`, because the source checks only the *immediately* following
point (index 1), whose `rih_standard_2` is `null`. -/
theorem C3_counterexample :
    stitchRunData [⟨30, some 7, none⟩] [⟨15, some 3, none⟩, ⟨25, some 9, none⟩]
      none 10 20 =
      [⟨15, none, none, some 3, none⟩, ⟨25, none, none, none, none⟩,
       ⟨30, none, some 7, none, none⟩] ∧
    ((stitchRunData [⟨30, some 7, none⟩] [⟨15, some 3, none⟩, ⟨25, some 9, none⟩]
      none 10 20).getD 0 default).rih_tractor = some 3 ∧
    ((stitchRunData [⟨30, some 7, none⟩] [⟨15, some 3, none⟩, ⟨25, some 9, none⟩]
      none 10 20).getD 2 default).rih_standard_2 = some 7 ∧
    ((stitchRunData [⟨30, some 7, none⟩] [⟨15, some 3, none⟩, ⟨25, some 9, none⟩]
      none 10 20).getD 0 default).rih_standard_2 = none := by
  have hu : unionMDs [⟨30, some 7, none⟩] [⟨15, some 3, none⟩, ⟨25, some 9, none⟩]
      none = [15, 25, 30] := by
    unfold unionMDs
    have h1 : (([⟨30, some 7, none⟩] : List SimSample).map SimSample.md ++
        ([⟨15, some 3, none⟩, ⟨25, some 9, none⟩] : List SimSample).map SimSample.md ++
        (match (none : Option (List SimSample)) with
         | some l => l.map SimSample.md
         | none => [])).dedup = [30, 15, 25] := by decide
    rw [h1]
    exact List.eq_of_perm_of_sorted ((List.mergeSort_perm _ _).trans (by decide))
      (List.sorted_mergeSort' _) (by decide)
  have hfr15 : findNear [⟨30, some 7, none⟩] 15 = none := by
    norm_num [findNear, List.find?]
  have hfr25 : findNear [⟨30, some 7, none⟩] 25 = none := by
    norm_num [findNear, List.find?]
  have hfr30 : findNear [⟨30, some 7, none⟩] 30 = some ⟨30, some 7, none⟩ := by
    norm_num [findNear, List.find?]
  have hft15 : findNear [⟨15, some 3, none⟩, ⟨25, some 9, none⟩] 15 =
      some ⟨15, some 3, none⟩ := by
    norm_num [findNear, List.find?]
  have hft25 : findNear [⟨15, some 3, none⟩, ⟨25, some 9, none⟩] 25 =
      some ⟨25, some 9, none⟩ := by
    norm_num [findNear, List.find?]
  have hft30 : findNear [⟨15, some 3, none⟩, ⟨25, some 9, none⟩] 30 = none := by
    norm_num [findNear, List.find?]
  have hfd : effForceDepth [⟨30, some 7, none⟩] 10 = 10 := by
    unfold effForceDepth
    rw [if_pos (by norm_num)]
  have hsd : effStopDepth 10 20 = some 20 := by
    unfold effStopDepth
    rw [if_pos (by norm_num)]
  have hrun : stitchRunData [⟨30, some 7, none⟩]
      [⟨15, some 3, none⟩, ⟨25, some 9, none⟩] none 10 20 =
      [⟨15, none, none, some 3, none⟩, ⟨25, none, none, none, none⟩,
       ⟨30, none, some 7, none, none⟩] := by
    unfold stitchRunData
    dsimp only
    rw [hfd, hsd, hu]
    norm_num [stitchLoop, stitchStep, poohOf, ltStop, hfr15, hfr25, hfr30,
      hft15, hft25, hft30, applyConnectors, conn1, conn2]
  refine ⟨hrun, ?_, ?_, ?_⟩ <;> rw [hrun] <;> rfl

/-- Embedding of the auto-display effect (App.jsx 3550-3577): when no tractor
file is stitched, the chart data is the `rih` file mapped point-for-point into
`rih_standard_1`, with the POOH override applied by proximity afterwards when
an override file is present (the pre-pass sets `pooh` to `null` whenever an
override file exists). -/
def autoDisplayChartData (rih : List SimSample)
    (pooh? : Option (List SimSample)) : List StitchedPoint :=
  let merged := rih.map fun p =>
    (⟨p.md, p.rih, none, none,
      match pooh? with | some _ => none | none => p.pooh⟩ : StitchedPoint)
  match pooh? with
  | some ov => merged.map fun pt =>
      { pt with pooh := match findNear ov pt.md with
                        | some pp => pp.pooh
                        | none => pt.pooh }
  | none => merged

/-- **C4.** With the tractor series absent, stitching degenerates: the
displayed data is exactly the `rih` series mapped point-for-point into
`rih_standard_1` (with `rih_tractor` and `rih_standard_2` null at every
point), and `pooh` follows the priority rule — the override file's proximity
match within 0.5 when an override file is present (null when it has no
match), else the rih sample's own pooh. -/
theorem C4_no_tractor_degenerate (rih : List SimSample)
    (pooh? : Option (List SimSample)) :
    autoDisplayChartData rih pooh? =
      rih.map fun p =>
        (⟨p.md, p.rih, none, none,
          match pooh? with
          | some ov => (findNear ov p.md).bind SimSample.pooh
          | none => p.pooh⟩ : StitchedPoint) := by
  cases pooh? with
  | none => rfl
  | some ov =>
    unfold autoDisplayChartData
    dsimp only
    rw [List.map_map]
    apply List.map_congr_left
    intro p _
    dsimp only [Function.comp]
    cases findNear ov p.md <;> rfl

/-- Witness for C1 at a concrete stitch (`rih` at md 0 with value 5, tractor
at md 10 with value 3, force depth 5, no stop depth): the Phase-1 point gets
only `rih_standard_1 = 5` and the Phase-2 point only `rih_tractor = 3`. -/
theorem C1_stitch_phases_witness :
    (([⟨0, some 5, none⟩] : List SimSample) ≠ []) ∧
    (mainPassOf [⟨0, some 5, none⟩] [⟨10, some 3, none⟩] none 5 0).getD 0 default =
      ⟨0, some 5, none, none, none⟩ ∧
    (mainPassOf [⟨0, some 5, none⟩] [⟨10, some 3, none⟩] none 5 0).getD 1 default =
      ⟨10, none, none, some 3, none⟩ := by
  have hu : unionMDs [⟨0, some 5, none⟩] [⟨10, some 3, none⟩] none = [0, 10] := by
    unfold unionMDs
    have h1 : (([⟨0, some 5, none⟩] : List SimSample).map SimSample.md ++
        ([⟨10, some 3, none⟩] : List SimSample).map SimSample.md ++
        (match (none : Option (List SimSample)) with
         | some l => l.map SimSample.md
         | none => [])).dedup = [0, 10] := by decide
    rw [h1]
    exact List.mergeSort_eq_self (by decide)
  have hfd : effForceDepth [⟨0, some 5, none⟩] 5 = 5 := by
    unfold effForceDepth
    rw [if_pos (by norm_num)]
  have hsd : effStopDepth 5 0 = none := by
    unfold effStopDepth
    rw [if_neg (by norm_num)]
  have hfr0 : findNear [⟨0, some 5, none⟩] 0 = some ⟨0, some 5, none⟩ := by
    norm_num [findNear, List.find?]
  have hft0 : findNear [⟨10, some 3, none⟩] 0 = none := by
    norm_num [findNear, List.find?]
  have hft10 : findNear [⟨10, some 3, none⟩] 10 = some ⟨10, some 3, none⟩ := by
    norm_num [findNear, List.find?]
  have h := C1_stitch_phases [⟨0, some 5, none⟩] [⟨10, some 3, none⟩] none 5 0 (by simp)
  have h8 := h.2.2.2.2.2.2.2
  refine ⟨by simp, ?_, ?_⟩
  · have hmd0 : (unionMDs [⟨0, some 5, none⟩] [⟨10, some 3, none⟩] none).getD 0 0 = 0 := by
      rw [hu]
      decide
    have hx := h8 0 (by rw [hu]; norm_num)
      ((unionMDs [⟨0, some 5, none⟩] [⟨10, some 3, none⟩] none).getD 0 0) rfl
      ((mainPassOf [⟨0, some 5, none⟩] [⟨10, some 3, none⟩] none 5 0).getD 0 default) rfl
    rw [hmd0] at hx
    have hp1 := hx.2.1 (by rw [hfd]; norm_num)
    refine stitchedPoint_eq_mk _ _ _ _ _ _ hx.1 ?_ hp1.2.2.1 hp1.2.1 ?_
    · rw [hp1.1, hfr0]
      rfl
    · rw [hp1.2.2.2]
      unfold poohOf
      rw [hft0]
      rfl
  · have hmd1 : (unionMDs [⟨0, some 5, none⟩] [⟨10, some 3, none⟩] none).getD 1 0 = 10 := by
      rw [hu]
      decide
    have hx := h8 1 (by rw [hu]; norm_num)
      ((unionMDs [⟨0, some 5, none⟩] [⟨10, some 3, none⟩] none).getD 1 0) rfl
      ((mainPassOf [⟨0, some 5, none⟩] [⟨10, some 3, none⟩] none 5 0).getD 1 default) rfl
    rw [hmd1] at hx
    have hp2 := hx.2.2.1 (by rw [hfd]; norm_num) (by rw [hfd, hsd]; rfl)
    refine stitchedPoint_eq_mk _ _ _ _ _ _ hx.1 hp2.2.1 hp2.2.2.1 ?_ ?_
    · rw [hp2.1, hft10]
      rfl
    · rw [hp2.2.2.2]
      unfold poohOf
      rw [hft10]
      rfl

/-- Witness for C2: `rih` stops at md 0 (value 5), tractor reaches md 25,
stop depth 20 — the Phase-3 point at md 25 has no rih match, and its
`rih_standard_2` is the flat extension of the last Phase-1 value `5`. -/
theorem C2_phase3_fallback_witness :
    2 < (unionMDs [⟨0, some 5, none⟩] [⟨10, some 3, none⟩, ⟨25, some 9, none⟩] none).length ∧
    ltStop ((unionMDs [⟨0, some 5, none⟩] [⟨10, some 3, none⟩, ⟨25, some 9, none⟩] none).getD 2 0)
      (effStopDepth (effForceDepth [⟨0, some 5, none⟩] 5) 20) = false ∧
    findNear [⟨0, some 5, none⟩] ((unionMDs [⟨0, some 5, none⟩] [⟨10, some 3, none⟩, ⟨25, some 9, none⟩] none).getD 2 0) = none ∧
    ((mainPassOf [⟨0, some 5, none⟩] [⟨10, some 3, none⟩, ⟨25, some 9, none⟩] none 5 20).getD 2 default).rih_standard_2 =
      some 5 := by
  have hu : unionMDs [⟨0, some 5, none⟩] [⟨10, some 3, none⟩, ⟨25, some 9, none⟩] none = [0, 10, 25] := by
    unfold unionMDs
    have h1 : (([⟨0, some 5, none⟩] : List SimSample).map SimSample.md ++
        ([⟨10, some 3, none⟩, ⟨25, some 9, none⟩] : List SimSample).map SimSample.md ++
        (match (none : Option (List SimSample)) with
         | some l => l.map SimSample.md
         | none => [])).dedup = [0, 10, 25] := by decide
    rw [h1]
    exact List.mergeSort_eq_self (by decide)
  have hfd : effForceDepth [⟨0, some 5, none⟩] 5 = 5 := by
    unfold effForceDepth
    rw [if_pos (by norm_num)]
  have hsd : effStopDepth 5 20 = some 20 := by
    unfold effStopDepth
    rw [if_pos (by norm_num)]
  have hfr0 : findNear [⟨0, some 5, none⟩] 0 = some ⟨0, some 5, none⟩ := by
    norm_num [findNear, List.find?]
  have hfr10 : findNear [⟨0, some 5, none⟩] 10 = none := by
    norm_num [findNear, List.find?]
  have hfr25 : findNear [⟨0, some 5, none⟩] 25 = none := by
    norm_num [findNear, List.find?]
  have hstop : ltStop ((unionMDs [⟨0, some 5, none⟩] [⟨10, some 3, none⟩, ⟨25, some 9, none⟩] none).getD 2 0)
      (effStopDepth (effForceDepth [⟨0, some 5, none⟩] 5) 20) = false := by
    rw [hu, hfd, hsd]
    norm_num [ltStop]
  have hmiss : findNear [⟨0, some 5, none⟩] ((unionMDs [⟨0, some 5, none⟩] [⟨10, some 3, none⟩, ⟨25, some 9, none⟩] none).getD 2 0) = none := by
    rw [hu]
    exact hfr25
  refine ⟨by rw [hu]; norm_num, hstop, hmiss, ?_⟩
  have hc := C2_phase3_fallback [⟨0, some 5, none⟩] [⟨10, some 3, none⟩, ⟨25, some 9, none⟩] none 5 20 2
    (by rw [hu]; norm_num) hstop hmiss
  rw [hc]
  have htake : (unionMDs [⟨0, some 5, none⟩] [⟨10, some 3, none⟩, ⟨25, some 9, none⟩] none).take 2 = [0, 10] := by
    rw [hu]
    decide
  rw [htake, hfd]
  have hhits : p1Hits [⟨0, some 5, none⟩] 5 [0, 10] = [⟨0, some 5, none⟩] := by
    unfold p1Hits
    rw [List.filterMap_cons, List.filterMap_cons]
    rw [if_pos (by norm_num : (0 : ℚ) < 5), hfr0,
      if_neg (by norm_num : ¬ (10 : ℚ) < 5)]
    rfl
  rw [hhits]
  rfl

/-- Witness for C3 (amended) at a stitch with a Phase-1→Phase-2 transition
and a Phase-3 reading at the immediately following point: the last Phase-1
point (md 0) gets `rih_tractor = 5` and the last Phase-2 point (md 10) gets
`rih_standard_2 = 3`. -/
theorem C3_connectors_witness :
    (p1HitsIdx [⟨0, some 5, none⟩, ⟨25, some 7, none⟩] (effForceDepth [⟨0, some 5, none⟩, ⟨25, some 7, none⟩] 5)
      (unionMDs [⟨0, some 5, none⟩, ⟨25, some 7, none⟩] [⟨10, some 3, none⟩] none) 0).getLast? = some (0, ⟨0, some 5, none⟩) ∧
    (p2HitsIdx [⟨10, some 3, none⟩] (effForceDepth [⟨0, some 5, none⟩, ⟨25, some 7, none⟩] 5)
      (effStopDepth (effForceDepth [⟨0, some 5, none⟩, ⟨25, some 7, none⟩] 5) 20)
      (unionMDs [⟨0, some 5, none⟩, ⟨25, some 7, none⟩] [⟨10, some 3, none⟩] none) 0).getLast? = some (1, ⟨10, some 3, none⟩) ∧
    ((stitchRunData [⟨0, some 5, none⟩, ⟨25, some 7, none⟩] [⟨10, some 3, none⟩] none 5 20).getD 0 default).rih_tractor =
      some 5 ∧
    ((stitchRunData [⟨0, some 5, none⟩, ⟨25, some 7, none⟩] [⟨10, some 3, none⟩] none 5 20).getD 1 default).rih_standard_2 =
      some 3 := by
  have hu : unionMDs [⟨0, some 5, none⟩, ⟨25, some 7, none⟩] [⟨10, some 3, none⟩] none = [0, 10, 25] := by
    unfold unionMDs
    have h1 : (([⟨0, some 5, none⟩, ⟨25, some 7, none⟩] : List SimSample).map SimSample.md ++
        ([⟨10, some 3, none⟩] : List SimSample).map SimSample.md ++
        (match (none : Option (List SimSample)) with
         | some l => l.map SimSample.md
         | none => [])).dedup = [0, 25, 10] := by decide
    rw [h1]
    exact List.eq_of_perm_of_sorted ((List.mergeSort_perm _ _).trans (by decide))
      (List.sorted_mergeSort' _) (by decide)
  have hfd : effForceDepth [⟨0, some 5, none⟩, ⟨25, some 7, none⟩] 5 = 5 := by
    unfold effForceDepth
    rw [if_pos (by norm_num)]
  have hsd : effStopDepth 5 20 = some 20 := by
    unfold effStopDepth
    rw [if_pos (by norm_num)]
  have hfr0 : findNear [⟨0, some 5, none⟩, ⟨25, some 7, none⟩] 0 = some ⟨0, some 5, none⟩ := by
    norm_num [findNear, List.find?]
  have hfr10 : findNear [⟨0, some 5, none⟩, ⟨25, some 7, none⟩] 10 = none := by
    norm_num [findNear, List.find?]
  have hfr25 : findNear [⟨0, some 5, none⟩, ⟨25, some 7, none⟩] 25 = some ⟨25, some 7, none⟩ := by
    norm_num [findNear, List.find?]
  have hft0 : findNear [⟨10, some 3, none⟩] 0 = none := by
    norm_num [findNear, List.find?]
  have hft10 : findNear [⟨10, some 3, none⟩] 10 = some ⟨10, some 3, none⟩ := by
    norm_num [findNear, List.find?]
  have hft25 : findNear [⟨10, some 3, none⟩] 25 = none := by
    norm_num [findNear, List.find?]
  have hp1 : (p1HitsIdx [⟨0, some 5, none⟩, ⟨25, some 7, none⟩] (effForceDepth [⟨0, some 5, none⟩, ⟨25, some 7, none⟩] 5)
      (unionMDs [⟨0, some 5, none⟩, ⟨25, some 7, none⟩] [⟨10, some 3, none⟩] none) 0).getLast? = some (0, ⟨0, some 5, none⟩) := by
    rw [hfd, hu]
    norm_num [p1HitsIdx, List.enumFrom, List.filterMap, hfr0, hfr10, hfr25]
  have hp2 : (p2HitsIdx [⟨10, some 3, none⟩] (effForceDepth [⟨0, some 5, none⟩, ⟨25, some 7, none⟩] 5)
      (effStopDepth (effForceDepth [⟨0, some 5, none⟩, ⟨25, some 7, none⟩] 5) 20)
      (unionMDs [⟨0, some 5, none⟩, ⟨25, some 7, none⟩] [⟨10, some 3, none⟩] none) 0).getLast? = some (1, ⟨10, some 3, none⟩) := by
    rw [hfd, hsd, hu]
    norm_num [p2HitsIdx, List.enumFrom, List.filterMap, ltStop, hft0, hft10, hft25]
  have h := C3_connectors [⟨0, some 5, none⟩, ⟨25, some 7, none⟩] [⟨10, some 3, none⟩] none 5 20
  have hmain : ((mainPassOf [⟨0, some 5, none⟩, ⟨25, some 7, none⟩] [⟨10, some 3, none⟩] none 5 20).getD 2 default).rih_standard_2 =
      some 7 := by
    unfold mainPassOf
    rw [hfd, hsd, hu]
    norm_num [stitchLoop, stitchStep, poohOf, ltStop, hfr0, hfr10, hfr25,
      hft0, hft10, hft25]
  refine ⟨hp1, hp2, ?_, ?_⟩
  · exact h.1 0 ⟨0, some 5, none⟩ 1 ⟨10, some 3, none⟩ hp1 hp2
  · have hb := h.2 1 ⟨10, some 3, none⟩ hp2
    rw [hb, if_pos (by rw [hmain]; simp)]

section SurveyParser

/-- One digit of a decimal numeral (`0`–`9`), or `none` for a non-digit. -/
def digVal (c : Char) : Option ℕ :=
  if c.isDigit then some (c.toNat - 48) else none

/-- Split a character list into its longest digit prefix and the rest. -/
def takeDigits : List Char → List ℕ × List Char
  | [] => ([], [])
  | c :: r =>
    if c.isDigit then
      ((c.toNat - 48) :: (takeDigits r).1, (takeDigits r).2)
    else ([], c :: r)

/-- Value of a big-endian digit list. -/
def natOfDigits (ds : List ℕ) : ℕ := ds.foldl (fun a d => 10 * a + d) 0

/-- The shape of a JavaScript float literal as consumed by
`parseFloat`: sign, integer digits, fraction digits, decimal exponent. -/
structure FloatRepr where
  sign : Bool
  ints : List ℕ
  frac : List ℕ
  exp : ℤ
deriving DecidableEq

/-- Exponent part after the `e`/`E` of a float literal: optional sign and
digits; an exponent with no digits is ignored (JS `parseFloat` backtracks). -/
def expOf (r : List Char) : ℤ :=
  match r with
  | '-' :: r2 => if (takeDigits r2).1 = [] then 0 else -(natOfDigits (takeDigits r2).1 : ℤ)
  | '+' :: r2 => if (takeDigits r2).1 = [] then 0 else (natOfDigits (takeDigits r2).1 : ℤ)
  | r2 => if (takeDigits r2).1 = [] then 0 else (natOfDigits (takeDigits r2).1 : ℤ)

/-- Parse the longest numeric-literal prefix of a string the way JS
`parseFloat` does (finite values): skip leading whitespace, optional sign,
integer digits, optional `.` and fraction digits, optional exponent;
`none` when no digit is consumed (JS `NaN`). -/
def parseFloatRepr (s : List Char) : Option FloatRepr :=
  let s0 := s.dropWhile Char.isWhitespace
  let sign := s0.head? = some '-'
  let s1 := if s0.head? = some '-' ∨ s0.head? = some '+' then s0.tail else s0
  let ints := (takeDigits s1).1
  let s2 := (takeDigits s1).2
  let frac := match s2 with
    | '.' :: r => (takeDigits r).1
    | _ => []
  let s3 := match s2 with
    | '.' :: r => (takeDigits r).2
    | _ => s2
  if ints = [] ∧ frac = [] then none
  else
    let e : ℤ := match s3 with
      | 'e' :: r => expOf r
      | 'E' :: r => expOf r
      | _ => 0
    some ⟨decide sign, ints, frac, e⟩

/-- Rational value of a parsed float literal. -/
def reprVal (r : FloatRepr) : ℚ :=
  (if r.sign then -1 else 1) *
    ((natOfDigits r.ints : ℚ) + (natOfDigits r.frac : ℚ) / 10 ^ r.frac.length) *
    (10 : ℚ) ^ r.exp

/-- JS `parseFloat` on finite numeric literals; `none` models `NaN`. -/
def jsParseFloat (s : List Char) : Option ℚ :=
  (parseFloatRepr s).map reprVal

/-- JS `str.replace(/^"|"$/g, '')`: strip one leading and one trailing
double quote. -/
def jsStripQuotes (s : List Char) : List Char :=
  let s1 := match s with
    | '\"' :: r => r
    | r => r
  match s1.getLast? with
  | some '\"' => s1.dropLast
  | _ => s1

/-- JS `str.replace(a, b)` with a one-character pattern: replace the first
occurrence only. -/
def replaceFirst : List Char → Char → Char → List Char
  | [], _, _ => []
  | c :: r, a, b => if c = a then b :: r else c :: replaceFirst r a b

/-- The character-level cleanup of one token (App.jsx lines 319–324):
strip surrounding quotes, drop the configured thousands separator, and
unless that separator is `','`, turn the first `','` into a decimal
point. -/
def cleanTok (thousandSep : String) (s : List Char) : List Char :=
  let s1 := jsStripQuotes s
  let s2 :=
    if thousandSep = "space" then s1.filter (fun c => ¬ c.isWhitespace)
    else if thousandSep = "." then s1.filter (fun c => c ≠ '.')
    else if thousandSep = "," then s1.filter (fun c => c ≠ ',')
    else s1
  if thousandSep ≠ "," then replaceFirst s2 ',' '.' else s2

/-- `cleanFloat` from `parseSurveyData` (App.jsx lines 317–326): an empty or
missing token gives 0; otherwise clean the token and parse it, with
unparseable tokens defaulting to 0 (JS `isNaN(val) ? 0 : val`). -/
def cleanFloat (thousandSep : String) (s? : Option (List Char)) : ℚ :=
  if s?.getD [] = [] then 0
  else (jsParseFloat (cleanTok thousandSep (s?.getD []))).getD 0

/-- Split on a single character, keeping empty segments (JS
`line.split(c)`). -/
def splitOnC (sep : Char) : List Char → List (List Char)
  | [] => [[]]
  | c :: r =>
    if c = sep then [] :: splitOnC sep r
    else
      match splitOnC sep r with
      | [] => [[c]]
      | p :: ps => (c :: p) :: ps

/-- A delimiter of the `auto` mode: tab, comma, semicolon or space. -/
def isAutoDelim (c : Char) : Bool := c = '\t' ∨ c = ',' ∨ c = ';' ∨ c = ' '

/-- Split on maximal runs of auto delimiters (JS
`line.split(/[\t,; ]+/)`); `lastDelim` says whether the previous character
was part of a delimiter run. -/
def autoSplitGo (lastDelim : Bool) : List Char → List (List Char)
  | [] => [[]]
  | c :: r =>
    if isAutoDelim c then
      if lastDelim then autoSplitGo true r
      else [] :: autoSplitGo true r
    else
      match autoSplitGo false r with
      | [] => [[c]]
      | p :: ps => (c :: p) :: ps

def autoSplit (line : List Char) : List (List Char) := autoSplitGo false line

/-- Tokenise one line per the configured delimiter (App.jsx lines 310–313).
The UI offers `auto`, `tab`, `,` and `;`, so the generic branch only ever
sees the single character `;`. -/
def splitParts (delimiter : String) (line : List Char) : List (List Char) :=
  if delimiter = "auto" then autoSplit line
  else if delimiter = "tab" then splitOnC '\t' line
  else if delimiter = "," then splitOnC ',' line
  else
    match delimiter.toList with
    | [c] => splitOnC c line
    | _ => [line]

/-- JS 1-based column access `parts[col - 1]`: `undefined` when the column
number is 0 (index −1) or past the end. -/
def col? (parts : List (List Char)) (col : ℕ) : Option (List Char) :=
  if col = 0 then none else parts.get? (col - 1)

/-- JS `String.prototype.trim`. -/
def jsTrim (s : List Char) : List Char :=
  ((s.dropWhile Char.isWhitespace).reverse.dropWhile Char.isWhitespace).reverse

/-- The survey-import configuration destructured at App.jsx line 303. -/
structure SurveyCfg where
  startLine : ℕ
  delimiter : String
  colMD : ℕ
  colInc : ℕ
  colAzi : ℕ
  unitMultiplier : ℚ
  thousandSep : String

/-- One loop iteration of `parseSurveyData` (App.jsx lines 314–332) on an
already trimmed, non-empty line: requires the MD and Inc columns to exist,
cleans the three tokens, scales MD by the unit multiplier, rejects a
negative MD and rounds the kept MD to 2 decimals. -/
def parseRow (cfg : SurveyCfg) (line : List Char) : Option SurveyStation :=
  (col? (splitParts cfg.delimiter line) cfg.colMD).bind fun rawMD =>
  (col? (splitParts cfg.delimiter line) cfg.colInc).bind fun rawInc =>
  if 0 ≤ cleanFloat cfg.thousandSep (some rawMD) * cfg.unitMultiplier then
    some ⟨roundDec 2 (cleanFloat cfg.thousandSep (some rawMD) * cfg.unitMultiplier),
          cleanFloat cfg.thousandSep (some rawInc),
          cleanFloat cfg.thousandSep (col? (splitParts cfg.delimiter line) cfg.colAzi)⟩
  else none

/-- `parseSurveyData` (App.jsx lines 299–335): split the text into lines,
start at `max 1 startLine`, skip blank lines and parse the rest. -/
def parseSurveyData (text : List Char) (cfg : SurveyCfg) : List SurveyStation :=
  if text = [] then []
  else
    ((splitOnC '\n' text).drop (max 1 cfg.startLine - 1)).filterMap fun l =>
      if jsTrim l = [] then none else parseRow cfg (jsTrim l)

end SurveyParser

theorem cleanFloat_eval (sep : String) (s t : List Char) (r : FloatRepr)
    (hne : ¬ s = []) (hct : cleanTok sep s = t)
    (hpr : parseFloatRepr t = some r) :
    cleanFloat sep (some s) = reprVal r := by
  unfold cleanFloat jsParseFloat
  simp only [Option.getD_some]
  rw [if_neg hne, hct, hpr]
  rfl

theorem cleanFloat_nan (sep : String) (s t : List Char)
    (hct : cleanTok sep s = t)
    (hpr : parseFloatRepr t = none) :
    cleanFloat sep (some s) = 0 := by
  unfold cleanFloat jsParseFloat
  simp only [Option.getD_some]
  by_cases hne : s = []
  · rw [if_pos hne]
  · rw [if_neg hne, hct, hpr]
    rfl

theorem splitParts_tab_example : splitParts "tab" "1.234,56\t10\t20".toList =
    ["1.234,56".toList, "10".toList, "20".toList] := by decide

/-- Token cleanup with thousands separator `.`: `1.234,56` becomes `1234.56`. -/
theorem cleanFloat_thousand_dot : cleanFloat "." (some "1.234,56".toList) = 123456 / 100 := by
  rw [cleanFloat_eval "." _ "1234.56".toList ⟨false, [1, 2, 3, 4], [5, 6], 0⟩
    (by decide) (by decide) (by decide)]
  unfold reprVal natOfDigits
  norm_num

theorem cleanFloat_ten : cleanFloat "." (some "10".toList) = 10 := by
  rw [cleanFloat_eval "." _ "10".toList ⟨false, [1, 0], [], 0⟩
    (by decide) (by decide) (by decide)]
  unfold reprVal natOfDigits
  norm_num

theorem cleanFloat_twenty : cleanFloat "." (some "20".toList) = 20 := by
  rw [cleanFloat_eval "." _ "20".toList ⟨false, [2, 0], [], 0⟩
    (by decide) (by decide) (by decide)]
  unfold reprVal natOfDigits
  norm_num

theorem cleanFloat_abc : cleanFloat "." (some "abc".toList) = 0 := by
  exact cleanFloat_nan "." _ "abc".toList (by decide) (by decide)

theorem parseRow_example : parseRow ⟨1, "tab", 1, 2, 3, 1, "."⟩ "1.234,56\t10\t20".toList =
    some ⟨123456 / 100, 10, 20⟩ := by
  unfold parseRow
  dsimp only
  rw [show col? (splitParts "tab" "1.234,56\t10\t20".toList) 1 = some "1.234,56".toList from
    by decide]
  simp only [Option.some_bind]
  rw [show col? (splitParts "tab" "1.234,56\t10\t20".toList) 2 = some "10".toList from by decide]
  simp only [Option.some_bind]
  rw [show col? (splitParts "tab" "1.234,56\t10\t20".toList) 3 = some "20".toList from by decide]
  rw [cleanFloat_thousand_dot, cleanFloat_ten, cleanFloat_twenty]
  rw [if_pos (by norm_num : (0 : ℚ) ≤ 123456 / 100 * 1)]
  have : (123456 / 100 * 1 : ℚ) * 10 ^ 2 = ((123456 : ℤ) : ℚ) := by norm_num
  unfold roundDec
  rw [this, round_intCast]
  norm_num

theorem parseSurveyData_example : parseSurveyData "1.234,56\t10\t20".toList ⟨1, "tab", 1, 2, 3, 1, "."⟩ =
    [⟨123456 / 100, 10, 20⟩] := by
  unfold parseSurveyData
  rw [if_neg (by decide)]
  dsimp only
  rw [show splitOnC '\n' "1.234,56\t10\t20".toList = ["1.234,56\t10\t20".toList] from by decide]
  rw [show max 1 1 - 1 = 0 from rfl, List.drop_zero]
  rw [List.filterMap_cons]
  rw [show jsTrim "1.234,56\t10\t20".toList = "1.234,56\t10\t20".toList from by decide]
  rw [if_neg (by decide), parseRow_example, List.filterMap_nil]

/-- Unit multiplier 0.3048 (ft to m) with visible 2-decimal rounding:
md 10 ft becomes 3.048 m, stored as 3.05. -/
theorem parseSurveyData_ft_to_m : parseSurveyData "10\t0\t0".toList ⟨1, "tab", 1, 2, 3, 3048 / 10000, "."⟩ =
    [⟨305 / 100, 0, 0⟩] := by
  have hz : cleanFloat "." (some "0".toList) = 0 := by
    rw [cleanFloat_eval "." _ "0".toList ⟨false, [0], [], 0⟩ (by decide) (by decide) (by decide)]
    unfold reprVal natOfDigits
    norm_num
  unfold parseSurveyData
  rw [if_neg (by decide)]
  dsimp only
  rw [show splitOnC '\n' "10\t0\t0".toList = ["10\t0\t0".toList] from by decide]
  rw [show max 1 1 - 1 = 0 from rfl, List.drop_zero]
  rw [List.filterMap_cons]
  rw [show jsTrim "10\t0\t0".toList = "10\t0\t0".toList from by decide]
  rw [if_neg (by decide)]
  unfold parseRow
  dsimp only
  rw [show col? (splitParts "tab" "10\t0\t0".toList) 1 = some "10".toList from by decide]
  simp only [Option.some_bind]
  rw [show col? (splitParts "tab" "10\t0\t0".toList) 2 = some "0".toList from by decide]
  simp only [Option.some_bind]
  rw [show col? (splitParts "tab" "10\t0\t0".toList) 3 = some "0".toList from by decide]
  rw [cleanFloat_ten, hz]
  rw [if_pos (by norm_num : (0 : ℚ) ≤ 10 * (3048 / 10000))]
  unfold roundDec
  rw [show (10 * (3048 / 10000) : ℚ) * 10 ^ 2 = 3048 / 10 by norm_num]
  rw [round_eq]
  norm_num

theorem parseSurveyData_negative_md : parseSurveyData "-5\t10\t20".toList ⟨1, "tab", 1, 2, 3, 1, "."⟩ = [] := by
  have hneg : cleanFloat "." (some "-5".toList) = -5 := by
    rw [cleanFloat_eval "." _ "-5".toList ⟨true, [5], [], 0⟩ (by decide) (by decide) (by decide)]
    unfold reprVal natOfDigits
    norm_num
  unfold parseSurveyData
  rw [if_neg (by decide)]
  dsimp only
  rw [show splitOnC '\n' "-5\t10\t20".toList = ["-5\t10\t20".toList] from by decide]
  rw [show max 1 1 - 1 = 0 from rfl, List.drop_zero]
  rw [List.filterMap_cons]
  rw [show jsTrim "-5\t10\t20".toList = "-5\t10\t20".toList from by decide]
  rw [if_neg (by decide)]
  unfold parseRow
  dsimp only
  rw [show col? (splitParts "tab" "-5\t10\t20".toList) 1 = some "-5".toList from by decide]
  simp only [Option.some_bind]
  rw [show col? (splitParts "tab" "-5\t10\t20".toList) 2 = some "10".toList from by decide]
  simp only [Option.some_bind]
  rw [hneg]
  rw [if_neg (by norm_num : ¬ (0 : ℚ) ≤ -5 * 1)]
  rw [List.filterMap_nil]

/-- Every station a parse emits has a nonnegative md that is an integer
number of hundredths (the `md >= 0` filter and `toFixed(2)` rounding). -/
theorem parseSurveyData_md_invariant : ∀ (text : List Char) (cfg : SurveyCfg) (st : SurveyStation),
    st ∈ parseSurveyData text cfg → 0 ≤ st.md ∧ ∃ k : ℤ, st.md = (k : ℚ) / 100 := by
  intro text cfg st hst
  unfold parseSurveyData at hst
  by_cases ht : text = []
  · rw [if_pos ht] at hst
    cases hst
  · rw [if_neg ht] at hst
    rw [List.mem_filterMap] at hst
    obtain ⟨l, hlmem, hl⟩ := hst
    by_cases hline : jsTrim l = []
    · rw [if_pos hline] at hl
      exact Option.noConfusion hl
    · rw [if_neg hline] at hl
      unfold parseRow at hl
      rw [Option.bind_eq_some] at hl
      obtain ⟨rawMD, hmd, hl⟩ := hl
      rw [Option.bind_eq_some] at hl
      obtain ⟨rawInc, hinc, hl⟩ := hl
      by_cases h0 : 0 ≤ cleanFloat cfg.thousandSep (some rawMD) * cfg.unitMultiplier
      · rw [if_pos h0] at hl
        have hst' := Option.some_inj.mp hl
        have hmd' : st.md =
            roundDec 2 (cleanFloat cfg.thousandSep (some rawMD) * cfg.unitMultiplier) := by
          rw [← hst']
        have h2 : (0 : ℤ) ≤
            round (cleanFloat cfg.thousandSep (some rawMD) * cfg.unitMultiplier * 10 ^ 2) := by
          rw [round_eq]
          refine Int.floor_nonneg.mpr ?_
          nlinarith
        refine ⟨?_, round (cleanFloat cfg.thousandSep (some rawMD) * cfg.unitMultiplier * 10 ^ 2),
          by rw [hmd']; unfold roundDec; norm_num⟩
        rw [hmd']
        unfold roundDec
        refine div_nonneg ?_ (by norm_num)
        exact_mod_cast h2
      · rw [if_neg h0] at hl
        exact Option.noConfusion hl


/-- C10: for every survey row, `parseSurveyData` cleans each numeric token by
stripping surrounding quotes, removing the configured thousands separator and
normalising the remaining `,` to `.` unless the separator is `,`, defaults
unparseable tokens to 0, multiplies MD by the unit multiplier, rejects rows
whose MD is negative and rounds MD to 2 decimals; in particular the line
`1.234,56<tab>10<tab>20` with thousands separator `.` parses MD as 1234.56. -/
theorem C10_survey_parsing :
    (∀ (text : List Char) (cfg : SurveyCfg) (st : SurveyStation),
        st ∈ parseSurveyData text cfg → 0 ≤ st.md ∧ ∃ k : ℤ, st.md = (k : ℚ) / 100) ∧
    parseSurveyData "1.234,56\t10\t20".toList ⟨1, "tab", 1, 2, 3, 1, "."⟩ =
      [⟨123456 / 100, 10, 20⟩] ∧
    cleanFloat "." (some "abc".toList) = 0 ∧
    parseSurveyData "-5\t10\t20".toList ⟨1, "tab", 1, 2, 3, 1, "."⟩ = [] ∧
    parseSurveyData "10\t0\t0".toList ⟨1, "tab", 1, 2, 3, 3048 / 10000, "."⟩ =
      [⟨305 / 100, 0, 0⟩] :=
  ⟨parseSurveyData_md_invariant, parseSurveyData_example, cleanFloat_abc,
    parseSurveyData_negative_md, parseSurveyData_ft_to_m⟩

/-- Witness for C10: the station parsed from `1.234,56<tab>10<tab>20` is in
the output, and its md 1234.56 is nonnegative and a whole number of
hundredths. -/
theorem C10_survey_parsing_witness :
    (⟨123456 / 100, 10, 20⟩ : SurveyStation) ∈
      parseSurveyData "1.234,56\t10\t20".toList ⟨1, "tab", 1, 2, 3, 1, "."⟩ ∧
    0 ≤ (123456 / 100 : ℚ) ∧ ∃ k : ℤ, (123456 / 100 : ℚ) = (k : ℚ) / 100 := by
  have h := C10_survey_parsing
  have hm : (⟨123456 / 100, 10, 20⟩ : SurveyStation) ∈
      parseSurveyData "1.234,56\t10\t20".toList ⟨1, "tab", 1, 2, 3, 1, "."⟩ := by
    rw [h.2.1]
    exact List.mem_singleton.mpr rfl
  have h2 := h.1 _ _ _ hm
  exact ⟨hm, h2.1, h2.2⟩
